import Mathlib

/-!
# Statistics cache and aggregator of the items API

A shallow embedding of `backend/src/routes/stats.js`,
`backend/src/routes/items.js` and `backend/src/middleware/errorHandler.js`.

* A number is the exact rational value of a binary64 float. Every arithmetic
  operation of `calculateStats` is the exact operation followed by `toDouble`,
  the rounding to the nearest binary64 (ties to even, subnormals included). A
  result that is not finite (`Infinity`, `NaN`) is `none`: every operation
  keeps it non-finite and the JSON response shows it as `null`. The two zeros
  are not told apart; the response shows both as `0`.
* A modification time is the number of milliseconds since the epoch, which is
  what a `Date` converts to under the relational operators; `null` converts to 0.
* The two module variables `statsCache` and `lastModified` are an explicit
  state record, threaded through every route handler.
* The file system is an input of each call: the outcome of `fs.stat`, the
  outcome of `fs.readFile` followed by `JSON.parse`, and the outcome of
  `fs.writeFile`.
* The `GET` handlers of the items router work on a collection of well-formed
  items; `POST /api/items` works on parsed JSON objects, because it accepts
  any body that passes its validation and never inspects the stored elements.
* The numbers that `parseInt` reads from the query and the route parameter are
  inputs; `NaN` is `none`.
* A request that overlaps with others is the sequence of its segments between
  `await` points, each run against the module variables of its moment.
* For `errorHandler` the outcome of compiling the text and the behaviour of
  the compiled function are inputs, as is the response of the remote server
  for `getCookie`.
* `calculateStats` is the function as the language defines it;
  `calculateStatsWithin` adds the limit that an engine puts on the number of
  arguments of a spread call, as a parameter.
-/

namespace Assessment

/-! ## Data model -/

/-- Item of the stored collection, as the routes read it from `items.json`. -/
structure Item where
  id : Int
  name : String
  category : String
  price : ℚ
deriving DecidableEq

/-- Value held by a property of the `categories` object: the reducer stores the
result of `(acc[k] || 0) + 1`, which is a number or, when the left operand is
not a number, a string concatenation. -/
inductive JSVal where
  | num (n : Nat)
  | str (s : String)
deriving DecidableEq

/-- Own properties of a plain object, in insertion order. -/
abbrev JSObject := List (String × JSVal)

/-- The `priceRange` object of the aggregate. -/
structure PriceRange where
  min : ℚ
  max : ℚ
deriving DecidableEq

/-- A JavaScript number as the aggregator computes with it: the exact value of
a finite binary64 float, or `none` for a value that is not finite. -/
abbrev JSNumber := Option ℚ

/-- The object returned by `calculateStats`. -/
structure Stats where
  total : Nat
  averagePrice : JSNumber
  categories : JSObject
  priceRange : PriceRange
deriving DecidableEq

/-! ## `calculateStats` -/

/-- `Math.round`: the integer closest to `x`; of two equally close integers the
one closer to plus infinity. -/
def mathRound (x : ℚ) : Int :=
  if x - (⌊x⌋ : ℚ) < 1 / 2 then ⌊x⌋ else ⌊x⌋ + 1

/-- The exponent of the unit in the last place of the binary64 format at `x`:
52 below the binary exponent of `x`, and never below that of the subnormal
numbers. -/
def ulpExponent (x : ℚ) : ℤ := max (Int.log 2 |x|) (-1022) - 52

/-- The integer nearest to `t`; of two equally near integers the even one. -/
def roundHalfEven (t : ℚ) : ℤ :=
  if t - (⌊t⌋ : ℚ) < 1 / 2 then ⌊t⌋
  else if 1 / 2 < t - (⌊t⌋ : ℚ) then ⌊t⌋ + 1
  else if ⌊t⌋ % 2 = 0 then ⌊t⌋ else ⌊t⌋ + 1

/-- The binary64 float nearest to the exact value `x`, as every arithmetic
operation of JavaScript returns it: `x` is rounded to a multiple of its unit in
the last place, ties to the even multiple; a result of magnitude `2^1024` or
more is `Infinity`. -/
def toDouble (x : ℚ) : JSNumber :=
  if |(roundHalfEven (x / (2 : ℚ) ^ ulpExponent x) : ℚ) * (2 : ℚ) ^ ulpExponent x|
      < (2 : ℚ) ^ (1024 : ℤ) then
    some ((roundHalfEven (x / (2 : ℚ) ^ ulpExponent x) : ℚ) * (2 : ℚ) ^ ulpExponent x)
  else none

/-- The operator `+` on numbers. -/
def numAdd (a b : JSNumber) : JSNumber :=
  match a, b with
  | some x, some y => toDouble (x + y)
  | _, _ => none

/-- The operator `*` on numbers. -/
def numMul (a b : JSNumber) : JSNumber :=
  match a, b with
  | some x, some y => toDouble (x * y)
  | _, _ => none

/-- The operator `/` on numbers; a division by zero gives `Infinity` or `NaN`. -/
def numDiv (a b : JSNumber) : JSNumber :=
  match a, b with
  | some x, some y => if y = 0 then none else toDouble (x / y)
  | _, _ => none

/-- `Math.round` on numbers; the result of rounding a float is a float. -/
def numRound (a : JSNumber) : JSNumber :=
  match a with
  | some x => some ((mathRound x : ℤ) : ℚ)
  | none => none

/-- `items.reduce((acc, cur) => acc + cur.price, 0)`. -/
def sumPrices (items : List Item) : JSNumber :=
  items.foldl (fun acc cur => numAdd acc (some cur.price)) (some 0)

/-- The `averagePrice` field:
`items.length > 0 ? Math.round((sum / items.length) * 100) / 100 : 0`. -/
def averagePrice (items : List Item) : JSNumber :=
  if items.length > 0 then
    numDiv (numRound (numMul (numDiv (sumPrices items) (some (items.length : ℚ))) (some 100)))
      (some 100)
  else some 0

/-- Properties that every plain object inherits from `Object.prototype`, each
with the string that the inherited value converts to when it is the left operand
of `+ 1`: the source text of a native function, or `[object Object]` for the
prototype object that the `__proto__` getter returns. -/
def objectPrototype : List (String × String) :=
  [ ("constructor", "function Object() \x7b [native code] \x7d"),
    ("__defineGetter__", "function __defineGetter__() \x7b [native code] \x7d"),
    ("__defineSetter__", "function __defineSetter__() \x7b [native code] \x7d"),
    ("hasOwnProperty", "function hasOwnProperty() \x7b [native code] \x7d"),
    ("__lookupGetter__", "function __lookupGetter__() \x7b [native code] \x7d"),
    ("__lookupSetter__", "function __lookupSetter__() \x7b [native code] \x7d"),
    ("isPrototypeOf", "function isPrototypeOf() \x7b [native code] \x7d"),
    ("propertyIsEnumerable", "function propertyIsEnumerable() \x7b [native code] \x7d"),
    ("toString", "function toString() \x7b [native code] \x7d"),
    ("valueOf", "function valueOf() \x7b [native code] \x7d"),
    ("__proto__", "[object Object]"),
    ("toLocaleString", "function toLocaleString() \x7b [native code] \x7d") ]

/-- The expression `(acc[k] || 0) + 1`. The property read looks at the own
properties first and then at `Object.prototype`; a falsy value (`undefined`, 0,
the empty string) is replaced by 0; adding 1 to a string or to an object
concatenates. -/
def bump (acc : JSObject) (k : String) : JSVal :=
  match acc.lookup k with
  | some (JSVal.num n) => if n = 0 then JSVal.num 1 else JSVal.num (n + 1)
  | some (JSVal.str s) => if s = "" then JSVal.num 1 else JSVal.str (s ++ "1")
  | none =>
    match objectPrototype.lookup k with
    | some text => JSVal.str (text ++ "1")
    | none => JSVal.num 1

/-- Replace the value of the own property `k`, keeping its position. -/
def replaceOwn (k : String) (v : JSVal) : JSObject → JSObject
  | [] => []
  | (k', v') :: rest =>
    if k' = k then (k', v) :: rest else (k', v') :: replaceOwn k v rest

/-- The assignment `acc[k] = v` on a plain object. An own property is
overwritten; `__proto__` is an accessor of `Object.prototype` whose setter
ignores a value that is neither an object nor `null`, so nothing is stored;
every other key becomes a new own property. -/
def setProp (acc : JSObject) (k : String) (v : JSVal) : JSObject :=
  if (acc.lookup k).isSome then replaceOwn k v acc
  else if k = "__proto__" then acc
  else acc ++ [(k, v)]

/-- The `categories` field:
`items.reduce((acc, item) => { acc[item.category] = (acc[item.category] || 0) + 1; return acc; }, {})`. -/
def categories (items : List Item) : JSObject :=
  items.foldl (fun acc item => setProp acc item.category (bump acc item.category)) []

/-- `Math.min(...xs)` for a non-empty argument list `x :: xs`. -/
def mathMin (x : ℚ) (xs : List ℚ) : ℚ := xs.foldl min x

/-- `Math.max(...xs)` for a non-empty argument list `x :: xs`. -/
def mathMax (x : ℚ) (xs : List ℚ) : ℚ := xs.foldl max x

/-- The `priceRange` field: the minimum and maximum of
`items.map(item => item.price)` when `items.length > 0`, else `{min: 0, max: 0}`. -/
def priceRange (items : List Item) : PriceRange :=
  match items.map (fun item => item.price) with
  | [] => { min := 0, max := 0 }
  | p :: ps => { min := mathMin p ps, max := mathMax p ps }

/-- The function `calculateStats` of `stats.js`. -/
def calculateStats (items : List Item) : Stats :=
  { total := items.length
    averagePrice := averagePrice items
    categories := categories items
    priceRange := priceRange items }

/-! ## The cache and the two routes -/

/-- Modification time of the data file, `Date.valueOf()` of `stats.mtime`. -/
abbrev Mtime := Int

/-- Outcome of a file-system call: a value, or a rejection with an `Error`
whose `message` is the string. -/
inductive FsResult (α : Type) where
  | ok (value : α)
  | error (message : String)
deriving DecidableEq

/-- The module variables `statsCache` and `lastModified`; `none` is `null`. -/
structure CacheState where
  statsCache : Option Stats
  lastModified : Option Mtime
deriving DecidableEq

/-- The values of the module variables when the module is loaded. -/
def initialState : CacheState := { statsCache := none, lastModified := none }

/-- The function `getFileStats`: the `mtime` of the data file, or `null` when
`fs.stat` rejects (the `catch` clause drops the error). -/
def getFileStats (stat : FsResult Mtime) : Option Mtime :=
  match stat with
  | FsResult.ok mtime => some mtime
  | FsResult.error _ => none

/-- The function `invalidateCache`. -/
def invalidateCache (_st : CacheState) : CacheState :=
  { statsCache := none, lastModified := none }

/-- Conversion of an operand of `<=` to a number: a `Date` gives its time
value and `null` gives 0. -/
def toNumber (d : Option Mtime) : Int :=
  match d with
  | some t => t
  | none => 0

/-- What `GET /api/stats` does: the body passed to `res.json` or the message of
the error passed to `next`, the module variables afterwards, and the number of
calls of `fs.readFile`. -/
structure GetResult where
  response : FsResult Stats
  state : CacheState
  reads : Nat
deriving DecidableEq

/-- The condition `statsCache && lastModified && currentModified <= lastModified`
of the handler, with the cached body when it holds. -/
def cacheHit (st : CacheState) (currentModified : Option Mtime) : Option Stats :=
  match st.statsCache, st.lastModified with
  | some cached, some lm =>
    if toNumber currentModified ≤ toNumber (some lm) then some cached else none
  | _, _ => none

/-- The handler of `GET /api/stats`. `stat` is the outcome of `fs.stat` and
`read` the outcome of `fs.readFile` followed by `JSON.parse`, consulted only
when the handler gets that far. -/
def get (st : CacheState) (stat : FsResult Mtime) (read : FsResult (List Item)) : GetResult :=
  let currentModified := getFileStats stat
  match cacheHit st currentModified with
  | some cached => { response := FsResult.ok cached, state := st, reads := 0 }
  | none =>
    match read with
    | FsResult.error message =>
      { response := FsResult.error message, state := st, reads := 1 }
    | FsResult.ok items =>
      let stats := calculateStats items
      { response := FsResult.ok stats
        state := { statsCache := some stats, lastModified := currentModified }
        reads := 1 }

/-- The handler of `DELETE /api/stats/cache`: the module variables afterwards
and the `message` of the JSON body. -/
def deleteCache (st : CacheState) : CacheState × String :=
  (invalidateCache st, "Cache invalidated")

/-- One request to the stats router, with the file-system outcomes it meets. -/
inductive Call where
  | get (stat : FsResult Mtime) (read : FsResult (List Item))
  | invalidate

/-- The module variables after one request. -/
def step (st : CacheState) (call : Call) : CacheState :=
  match call with
  | Call.get stat read => (get st stat read).state
  | Call.invalidate => (deleteCache st).1

/-- The module variables after a sequence of requests handled one after another. -/
def run (st : CacheState) (calls : List Call) : CacheState :=
  calls.foldl step st

/-- Consecutive `GET /api/stats` requests that all find modification time `c`;
the k-th element of `contents` is what the data file holds during the k-th
request. -/
def getSeq (st : CacheState) (c : Mtime) : List (List Item) → List GetResult
  | [] => []
  | items :: rest =>
    get st (FsResult.ok c) (FsResult.ok items)
      :: getSeq (get st (FsResult.ok c) (FsResult.ok items)).state c rest

/-- Number of `fs.readFile` calls made by a sequence of requests. -/
def totalReads (results : List GetResult) : Nat :=
  (results.map (fun r => r.reads)).sum

/-- The item fixture of `stats.test.js`. -/
def mockItems : List Item :=
  [ { id := 1, name := "Laptop Pro", category := "Electronics", price := 2499 },
    { id := 2, name := "Noise Cancelling Headphones", category := "Electronics", price := 399 },
    { id := 3, name := "Ergonomic Chair", category := "Furniture", price := 799 } ]

/-- Time value of `new Date('2023-01-01')`, the `mtime` fixture of `stats.test.js`. -/
def mockDate : Mtime := 1672531200000

/-- The entry is wholly absent or wholly populated. -/
def Whole (st : CacheState) : Prop :=
  st.statsCache = none ↔ st.lastModified = none

/-- No `fs.stat` of the sequence rejects. -/
def StatsSucceed : List Call → Prop
  | [] => True
  | Call.get (FsResult.ok _) _ :: rest => StatsSucceed rest
  | Call.get (FsResult.error _) _ :: _ => False
  | Call.invalidate :: rest => StatsSucceed rest

/-! ## The stats handler between its suspension points -/

/-- Where `GET /api/stats` stands when it reaches `await fs.readFile`: it has
already answered from the cache, or it has decided to recompute and holds the
`currentModified` it observed. -/
inductive Pending where
  | hit (cached : Stats)
  | miss (currentModified : Option Mtime)
deriving DecidableEq

/-- The handler from the moment `await getFileStats()` resumes up to
`await fs.readFile`: it runs without interruption against the module variables
`st` of that moment and does not assign them. -/
def getCheck (st : CacheState) (stat : FsResult Mtime) : Pending :=
  match cacheHit st (getFileStats stat) with
  | some cached => Pending.hit cached
  | none => Pending.miss (getFileStats stat)

/-- The handler from the moment `await fs.readFile` resumes to its end, run
against the module variables `st` of that later moment: parse, compute, assign
both variables, answer; or pass the read error to `next`. -/
def getFinish (st : CacheState) (currentModified : Option Mtime)
    (read : FsResult (List Item)) : GetResult :=
  match read with
  | FsResult.error message =>
    { response := FsResult.error message, state := st, reads := 1 }
  | FsResult.ok items =>
    { response := FsResult.ok (calculateStats items)
      state := { statsCache := some (calculateStats items), lastModified := currentModified }
      reads := 1 }

/-! ## The items routes -/

/-- A number that `parseInt` gives: an integer, or `NaN` (`none`). The same
type holds a number of the JSON response, where `NaN` and `Infinity` are both
written as `null`. -/
abbrev JSInt := Option Int

/-- The error a handler passes to `next`: its `status` property when the
handler set one, and its `message`. -/
structure HttpError where
  status : Option Nat
  message : String
deriving DecidableEq

/-- What a handler of the items router ends with: `res.status(status).json(body)`
(`res.json` sends 200), or `next(err)`. -/
inductive Reply (α : Type) where
  | sent (status : Nat) (body : α)
  | failed (err : HttpError)
deriving DecidableEq

/-- The function `readData`: the parsed file, or a new error whose message is
`Failed to read data: ` followed by the message of the read or parse error. -/
def readData {α : Type} (read : FsResult α) : FsResult α :=
  match read with
  | FsResult.ok data => FsResult.ok data
  | FsResult.error message => FsResult.error ("Failed to read data: " ++ message)

/-- The function `writeData`, given the outcome of `fs.writeFile`. -/
def writeData (write : FsResult Unit) : FsResult Unit :=
  match write with
  | FsResult.ok u => FsResult.ok u
  | FsResult.error message => FsResult.error ("Failed to write data: " ++ message)

/-- `s.includes(t)`: `t` occurs in `s` as a run of consecutive characters. -/
def includes (s t : String) : Bool := decide (t.data <:+: s.data)

/-- The search step of `GET /api/items`. `toLowerCase` stands for
`String.prototype.toLowerCase`, whose Unicode case mapping is left to the
caller of the model. The test `if (q)` fails for an absent and for an empty
parameter. -/
def searchFilter (toLowerCase : String → String) (data : List Item) (q : Option String) :
    List Item :=
  match q with
  | none => data
  | some term =>
    if term = "" then data
    else
      data.filter (fun item =>
        includes (toLowerCase item.name) (toLowerCase term) ||
        includes (toLowerCase item.category) (toLowerCase term))

/-- Subtraction of JavaScript numbers; `NaN` propagates. -/
def jsSub (a b : JSInt) : JSInt :=
  match a, b with
  | some x, some y => some (x - y)
  | _, _ => none

/-- Multiplication of JavaScript numbers; `NaN` propagates. -/
def jsMul (a b : JSInt) : JSInt :=
  match a, b with
  | some x, some y => some (x * y)
  | _, _ => none

/-- Addition of JavaScript numbers; `NaN` propagates. -/
def jsAdd (a b : JSInt) : JSInt :=
  match a, b with
  | some x, some y => some (x + y)
  | _, _ => none

/-- The comparison `a < n`; false when `a` is `NaN`. -/
def jsLt (a : JSInt) (n : Int) : Bool :=
  match a with
  | some x => decide (x < n)
  | none => false

/-- The comparison `a > n`; false when `a` is `NaN`. -/
def jsGt (a : JSInt) (n : Int) : Bool :=
  match a with
  | some x => decide (x > n)
  | none => false

/-- How `Array.prototype.slice` reads one of its arguments on an array of
length `len`: `NaN` is 0, a negative index counts from the end, and the result
is clamped to `0 .. len`. -/
def sliceIndex (len : Nat) (i : JSInt) : Nat :=
  match i with
  | none => 0
  | some n => if n < 0 then (len + n).toNat else min n.toNat len

/-- `xs.slice(start, stop)`. -/
def jsSlice {α : Type} (xs : List α) (start stop : JSInt) : List α :=
  (xs.drop (sliceIndex xs.length start)).take
    (sliceIndex xs.length stop - sliceIndex xs.length start)

/-- `Math.ceil(n / limit)` as the JSON response shows it: `null` when `limit`
is `NaN` or 0 (the quotient is `NaN` or `Infinity`). -/
def ceilDiv (n : Nat) (limit : JSInt) : JSInt :=
  match limit with
  | none => none
  | some l => if l = 0 then none else some ⌈(n : ℚ) / (l : ℚ)⌉

/-- The `pagination` object of the response of `GET /api/items`. -/
structure Pagination where
  page : JSInt
  limit : JSInt
  total : Nat
  totalPages : JSInt
  hasNext : Bool
  hasPrev : Bool
deriving DecidableEq

/-- The body of the response of `GET /api/items`. -/
structure ItemsPage where
  items : List Item
  pagination : Pagination
deriving DecidableEq

/-- The query of `GET /api/items`. `page` and `limit` hold what `parseInt`
reads from the parameter, and are `none` when the parameter is absent. -/
structure ItemsQuery where
  q : Option String
  page : Option JSInt
  limit : Option JSInt

/-- The pagination step of `GET /api/items`, from `startIndex` to the body. -/
def paginate (results : List Item) (pageNum limitNum : JSInt) : ItemsPage :=
  let startIndex := jsMul (jsSub pageNum (some 1)) limitNum
  let endIndex := jsAdd startIndex limitNum
  { items := jsSlice results startIndex endIndex
    pagination :=
      { page := pageNum
        limit := limitNum
        total := results.length
        totalPages := ceilDiv results.length limitNum
        hasNext := jsLt endIndex results.length
        hasPrev := jsGt pageNum 1 } }

/-- The handler of `GET /api/items`; the defaults of the destructuring are
`limit = 10` and `page = 1`. -/
def getItems (toLowerCase : String → String) (read : FsResult (List Item))
    (query : ItemsQuery) : Reply ItemsPage :=
  match readData read with
  | FsResult.error message => Reply.failed { status := none, message := message }
  | FsResult.ok data =>
    Reply.sent 200
      (paginate (searchFilter toLowerCase data query.q)
        (query.page.getD (some 1)) (query.limit.getD (some 10)))

/-- The handler of `GET /api/items/:id`; `id` is `parseInt(req.params.id)`.
`NaN` is strictly equal to no id. -/
def getItemById (read : FsResult (List Item)) (id : JSInt) : Reply Item :=
  match readData read with
  | FsResult.error message => Reply.failed { status := none, message := message }
  | FsResult.ok data =>
    match data.find? (fun i => decide (some i.id = id)) with
    | some item => Reply.sent 200 item
    | none => Reply.failed { status := some 404, message := "Item not found" }

/-- A property value of a parsed JSON object. An array or object value is kept
as its JSON text. -/
inductive Json where
  | null
  | bool (b : Bool)
  | num (x : ℚ)
  | str (s : String)
  | composite (text : String)
deriving DecidableEq

/-- A parsed JSON object: its properties in order, each key once. -/
abbrev JsonObject := List (String × Json)

/-- The operand test of `!`: an absent property (`undefined`), `null`, `false`,
0 and the empty string are falsy, everything else is truthy. -/
def truthy (v : Option Json) : Bool :=
  match v with
  | none => false
  | some Json.null => false
  | some (Json.bool b) => b
  | some (Json.num x) => decide (x ≠ 0)
  | some (Json.str s) => decide (s ≠ "")
  | some (Json.composite _) => true

/-- The test `typeof v === 'number'`. -/
def isNumber (v : Option Json) : Bool :=
  match v with
  | some (Json.num _) => true
  | _ => false

/-- The assignment `item[k] = v`: an own property is overwritten in place, a
new one is added last. -/
def assign (k : String) (v : Json) : JsonObject → JsonObject
  | [] => [(k, v)]
  | (k', v') :: rest =>
    if k' = k then (k', v) :: rest else (k', v') :: assign k v rest

/-- The validation of `POST /api/items` passes:
`!item.name || !item.category || typeof item.price !== 'number'` is false. -/
def validBody (item : JsonObject) : Bool :=
  truthy (item.lookup "name") && truthy (item.lookup "category") &&
    isNumber (item.lookup "price")

/-- What `POST /api/items` does: how it ends, how often it called
`fs.readFile`, and the collection it handed to `fs.writeFile` (before
`JSON.stringify`) if it got that far. -/
structure PostResult where
  reply : Reply JsonObject
  reads : Nat
  written : Option (List JsonObject)
deriving DecidableEq

/-- The message of the validation error of `POST /api/items`. -/
def invalidItemMessage : String :=
  "Invalid item data. Name, category, and price are required."

/-- The handler of `POST /api/items`. `body` is `req.body`, `now` the value of
`Date.now()`, `read` the outcome of reading and parsing the data file and
`write` the outcome of `fs.writeFile`. -/
def postItem (body : JsonObject) (now : Int) (read : FsResult (List JsonObject))
    (write : FsResult Unit) : PostResult :=
  if validBody body then
    match readData read with
    | FsResult.error message =>
      { reply := Reply.failed { status := none, message := message }, reads := 1, written := none }
    | FsResult.ok data =>
      let item := assign "id" (Json.num (now : ℚ)) body
      let data' := data ++ [item]
      match writeData write with
      | FsResult.error message =>
        { reply := Reply.failed { status := none, message := message }
          reads := 1, written := some data' }
      | FsResult.ok _ => { reply := Reply.sent 201 item, reads := 1, written := some data' }
  else
    { reply := Reply.failed { status := some 400, message := invalidItemMessage }
      reads := 0, written := none }

/-- The 25 items of the pagination test of `items.test.js`. -/
def largeMockItems : List Item :=
  (List.range 25).map (fun (i : Nat) =>
    ({ id := ((i + 1 : Nat) : Int), name := "Item " ++ toString (i + 1), category := "Test",
       price := 100 } : Item))

/-- The stored collection of the `POST` tests of `items.test.js`. -/
def mockStored : List JsonObject :=
  [ [("id", Json.num 1), ("name", Json.str "Laptop Pro"), ("category", Json.str "Electronics"),
     ("price", Json.num 2499)] ]

/-- The valid request body of the `POST` tests of `items.test.js`. -/
def newItem : JsonObject :=
  [("name", Json.str "New Item"), ("category", Json.str "Test"), ("price", Json.num 100)]

/-- The rejection condition in the words of the specification: the field is
missing or is the empty string. -/
def missingOrEmpty (v : Option Json) : Prop :=
  v = none ∨ v = some (Json.str "")

/-- The rejection condition of `POST /api/items` in the words of the
specification: name missing or empty, or category missing or empty, or price
not of numeric type. -/
def specInvalid (body : JsonObject) : Prop :=
  missingOrEmpty (body.lookup "name") ∨ missingOrEmpty (body.lookup "category") ∨
    isNumber (body.lookup "price") = false

/-- The handler answers 400 with a message that begins `Invalid item data`. -/
def rejectedAsInvalid (r : PostResult) : Prop :=
  ∃ message rest, r.reply = Reply.failed { status := some 400, message := message } ∧
    message = "Invalid item data" ++ rest

/-- A request body whose `name` is `false`. -/
def falseNameBody : JsonObject :=
  [("name", Json.bool false), ("category", Json.str "Test"), ("price", Json.num 100)]

/-- The `id` properties of a collection; `none` where an element has none. -/
def ids (data : List JsonObject) : List (Option Json) :=
  data.map (fun o => o.lookup "id")

/-- A stored collection whose only item was created at clock value 1700000000000. -/
def storedAtClock : List JsonObject :=
  [ [("name", Json.str "First"), ("category", Json.str "Test"), ("price", Json.num 1),
     ("id", Json.num 1700000000000)] ]

/-- How a request that stands at `await fs.readFile` goes on once it resumes,
against the module variables `st` of that moment; a request that has already
answered from the cache does nothing more. -/
def resume (st : CacheState) (pending : Pending) (read : FsResult (List Item)) : GetResult :=
  match pending with
  | Pending.hit cached => { response := FsResult.ok cached, state := st, reads := 0 }
  | Pending.miss currentModified => getFinish st currentModified read

/-- The case mapping of `toLowerCase` on ASCII letters, enough for the test
fixtures. -/
def asciiLower (s : String) : String := String.mk (s.data.map Char.toLower)

/-- The `items` of the response of `GET /api/items`; nothing when the handler
failed. -/
def replyItems (r : Reply ItemsPage) : List Item :=
  match r with
  | Reply.sent _ body => body.items
  | Reply.failed _ => []

/-- The `pagination` of the response of `GET /api/items`, when there is one. -/
def replyPagination (r : Reply ItemsPage) : Option Pagination :=
  match r with
  | Reply.sent _ body => some body.pagination
  | Reply.failed _ => none

/-- The request for page `page` with `limit` items a page and search term `q`. -/
def pageQuery (q : Option String) (page limit : Nat) : ItemsQuery :=
  { q := q, page := some (some (page : Int)), limit := some (some (limit : Int)) }

/-! ## `errorHandler` and `getCookie` -/

/-- What a value thrown by the remote code offers to the expression
`globalError.message`. `null` and `undefined` (named by `name`) have no
properties, so reading one throws a `TypeError`; any other value gives the text
that `console.error` prints for its `message`. -/
inductive Thrown where
  | nullish (name : String)
  | value (message : String)
deriving DecidableEq

/-- How the call `handlerFunc(require)` ends: it returns, it throws, or it does
not come back (the code loops or ends the process). -/
inductive Completion where
  | normal
  | throws (thrown : Thrown)
  | never
deriving DecidableEq

/-- What `errorHandler` and `getCookie` do that can be observed from outside:
a line written by `console.error`, a function built from a text by the
`Function` constructor, and a call of that function with `require`. -/
inductive Effect where
  | log (text : String)
  | build (code : String)
  | invoke (code : String)
deriving DecidableEq

/-- How a call of `errorHandler` ends for its caller. -/
inductive Outcome where
  | returned
  | raised (message : String)
  | never
deriving DecidableEq

/-- A call of `errorHandler` or `getCookie`: its effects in order and its end. -/
structure HandlerRun where
  effects : List Effect
  outcome : Outcome
deriving DecidableEq

/-- The message of the `TypeError` for reading `message` of `null` or
`undefined`. -/
def nullishMessage (name : String) : String :=
  "Cannot read properties of " ++ name ++ " (reading \x27message\x27)"

/-- The function `errorHandler`. `compile` is the outcome of
`new (Function.constructor)('require', errCode)`: `none` when the text compiles
as a function body, else the message of the error thrown. `call` is how the
built function behaves when called with `require`. Both are consulted only
when the handler gets that far. -/
def errorHandler (error : Json) (compile : Option String) (call : Completion) : HandlerRun :=
  match error with
  | Json.str errCode =>
    match compile with
    | some message =>
      { effects := [Effect.log ("Failed: " ++ message),
                    Effect.log "Handler function is not available."]
        outcome := Outcome.returned }
    | none =>
      match call with
      | Completion.normal =>
        { effects := [Effect.build errCode, Effect.invoke errCode], outcome := Outcome.returned }
      | Completion.never =>
        { effects := [Effect.build errCode, Effect.invoke errCode], outcome := Outcome.never }
      | Completion.throws (Thrown.value message) =>
        { effects := [Effect.build errCode, Effect.invoke errCode,
                      Effect.log ("Unexpected error inside errorHandler: " ++ message)]
          outcome := Outcome.returned }
      | Completion.throws (Thrown.nullish name) =>
        { effects := [Effect.build errCode, Effect.invoke errCode]
          outcome := Outcome.raised (nullishMessage name) }
  | _ =>
    { effects := [Effect.log "Invalid error format. Expected a string."]
      outcome := Outcome.returned }

/-- The function `getCookie`. `response` is the outcome of `axios.get`: the
`data` of the response when it is an object (`none` when it is anything else,
which has no `cookie`), or the message of the request error. The `catch`
clause logs what `errorHandler` raises. -/
def getCookie (response : FsResult (Option JsonObject)) (compile : Option String)
    (call : Completion) : HandlerRun :=
  match response with
  | FsResult.error message =>
    { effects := [Effect.log ("Failed to get cookie: " ++ message)], outcome := Outcome.returned }
  | FsResult.ok none => { effects := [], outcome := Outcome.returned }
  | FsResult.ok (some data) =>
    match data.lookup "cookie" with
    | none => { effects := [], outcome := Outcome.returned }
    | some cookie =>
      if truthy (some cookie) then
        match errorHandler cookie compile call with
        | { effects := effects, outcome := Outcome.raised message } =>
          { effects := effects ++ [Effect.log ("Failed to get cookie: " ++ message)]
            outcome := Outcome.returned }
        | run => run
      else { effects := [], outcome := Outcome.returned }

/-- The function `calculateStats` on an engine whose call stack holds at most
`maxArguments` arguments of one call. The spread calls
`Math.min(...items.map(...))` and `Math.max(...)` pass one argument for every
item; with more arguments than the stack holds the engine raises
`RangeError: Maximum call stack size exceeded` and nothing is returned.
`maxArguments` is a property of the engine and of its stack size. The empty
sequence takes the branch that spreads nothing. -/
def calculateStatsWithin (maxArguments : Nat) (items : List Item) : Except String Stats :=
  if items.length > maxArguments then Except.error "Maximum call stack size exceeded"
  else Except.ok (calculateStats items)

/-- Forty items with integer prices: one of 23 and thirty-nine of 0. Their mean
is 0.575, half way between 0.57 and 0.58. -/
def tieItems : List Item :=
  { id := 1, name := "Item 1", category := "Test", price := 23 }
    :: List.replicate 39 { id := 2, name := "Item 2", category := "Test", price := 0 }

/-- One item with a large integer price. -/
def largePriceItems : List Item :=
  [ { id := 1, name := "Item 1", category := "Test", price := 502858839078121 } ]

/-! ## The stats route -/

/-- C1. When `fs.stat` rejects, the handler does not fail with the stat error.
With a populated entry it answers with the cached body and reads nothing; with
an absent entry it reads the collection, answers with fresh statistics and
stores them with `lastModified = null`. -/
theorem get_stat_rejected_not_propagated :
    get { statsCache := some (calculateStats mockItems), lastModified := some mockDate }
        (FsResult.error "Stat failed") (FsResult.error "File not found")
      = { response := FsResult.ok (calculateStats mockItems)
          state := { statsCache := some (calculateStats mockItems), lastModified := some mockDate }
          reads := 0 }
    ∧ get initialState (FsResult.error "Stat failed") (FsResult.ok [])
      = { response := FsResult.ok (calculateStats [])
          state := { statsCache := some (calculateStats []), lastModified := none }
          reads := 1 } := by
  constructor <;> rfl

/-- C2. With a populated entry `(v, s)` and a current modification time
`c ≤ s`, the handler answers with `v`, does not call `fs.readFile`, and leaves
the entry equal to `(v, s)`. -/
theorem get_hit (v : Stats) (s c : Mtime) (read : FsResult (List Item)) (h : c ≤ s) :
    get { statsCache := some v, lastModified := some s } (FsResult.ok c) read
      = { response := FsResult.ok v
          state := { statsCache := some v, lastModified := some s }
          reads := 0 } := by
  simp [get, cacheHit, getFileStats, toNumber, h]

/-- A hit at the fixture: the file is one day older than the entry. -/
theorem get_hit_witness :
    (1672531200000 : Mtime) ≤ 1672617600000 ∧
    get { statsCache := some (calculateStats mockItems), lastModified := some 1672617600000 }
        (FsResult.ok 1672531200000) (FsResult.ok [])
      = { response := FsResult.ok (calculateStats mockItems)
          state := { statsCache := some (calculateStats mockItems),
                     lastModified := some 1672617600000 }
          reads := 0 } :=
  ⟨by decide, get_hit (calculateStats mockItems) 1672617600000 1672531200000 (FsResult.ok [])
    (by decide)⟩

/-- C3. With an absent entry, or a populated entry whose recorded modification
time `s` is strictly below the current one `c`, and a successful read giving
`items`, the handler calls `fs.readFile` once, answers with
`calculateStats items` and leaves the entry equal to `(calculateStats items, c)`. -/
theorem get_miss_recomputes (st : CacheState) (c : Mtime) (items : List Item)
    (h : st = initialState ∨
      ∃ v s, st = { statsCache := some v, lastModified := some s } ∧ s < c) :
    get st (FsResult.ok c) (FsResult.ok items)
      = { response := FsResult.ok (calculateStats items)
          state := { statsCache := some (calculateStats items), lastModified := some c }
          reads := 1 } := by
  rcases h with rfl | ⟨v, s, rfl, hlt⟩
  · simp [get, cacheHit, getFileStats, initialState]
  · simp [get, cacheHit, getFileStats, toNumber, not_le.mpr hlt]

/-- A miss at the fixture: the file is one day newer than the entry. -/
theorem get_miss_recomputes_witness :
    get { statsCache := some (calculateStats []), lastModified := some 1672531200000 }
        (FsResult.ok 1672617600000) (FsResult.ok mockItems)
      = { response := FsResult.ok (calculateStats mockItems)
          state := { statsCache := some (calculateStats mockItems),
                     lastModified := some 1672617600000 }
          reads := 1 } :=
  get_miss_recomputes _ 1672617600000 mockItems
    (Or.inr ⟨calculateStats [], 1672531200000, rfl, by decide⟩)

/-- C4. When the handler misses and reading or parsing the collection fails
with message `e`, the handler passes an error with message `e` to `next`,
answers with no statistics, and leaves both module variables as they were. -/
theorem get_read_error (st : CacheState) (stat : FsResult Mtime) (e : String)
    (hmiss : cacheHit st (getFileStats stat) = none) :
    get st stat (FsResult.error e)
      = { response := FsResult.error e, state := st, reads := 1 } := by
  simp [get, hmiss]

/-- A failed read on a miss with a populated entry keeps that entry. -/
theorem get_read_error_witness :
    cacheHit { statsCache := some (calculateStats mockItems), lastModified := some 1672531200000 }
        (getFileStats (FsResult.ok 1672617600000)) = none ∧
    get { statsCache := some (calculateStats mockItems), lastModified := some 1672531200000 }
        (FsResult.ok 1672617600000) (FsResult.error "File not found")
      = { response := FsResult.error "File not found"
          state := { statsCache := some (calculateStats mockItems),
                     lastModified := some 1672531200000 }
          reads := 1 } :=
  ⟨by rfl, get_read_error _ _ "File not found" (by rfl)⟩

/-- C5. Whatever the module variables were and whatever `fs.stat` gives, the
`GET` that follows `invalidateCache` calls `fs.readFile`, and its response comes
from that read alone: fresh statistics of the items read, or the read error. -/
theorem get_after_invalidate (st : CacheState) (stat : FsResult Mtime)
    (read : FsResult (List Item)) :
    (get (invalidateCache st) stat read).reads = 1 ∧
    (get (invalidateCache st) stat read).response =
      (match read with
       | FsResult.ok items => FsResult.ok (calculateStats items)
       | FsResult.error e => FsResult.error e) := by
  cases read <;> simp [get, cacheHit, invalidateCache]

/-- C6. `DELETE /api/stats/cache` always answers, with message
`Cache invalidated`, leaves `statsCache = null` and `lastModified = null`, and a
second application gives the same state and response as the first. -/
theorem deleteCache_clears_idempotent (st : CacheState) :
    deleteCache st = ({ statsCache := none, lastModified := none }, "Cache invalidated") ∧
    deleteCache (deleteCache st).1 = deleteCache st := by
  simp [deleteCache, invalidateCache]

/-! ## Sequences of requests -/

/-- A request that hits leaves everything in place. -/
theorem get_of_cacheHit (st : CacheState) (c : Mtime) (v : Stats) (items : List Item)
    (h : cacheHit st (some c) = some v) :
    get st (FsResult.ok c) (FsResult.ok items)
      = { response := FsResult.ok v, state := st, reads := 0 } := by
  simp [get, getFileStats, h]

/-- From a state that hits at `c`, every later request at `c` hits as well. -/
theorem getSeq_of_cacheHit (st : CacheState) (c : Mtime) (v : Stats)
    (h : cacheHit st (some c) = some v) (contents : List (List Item)) :
    (∀ r ∈ getSeq st c contents, r.response = FsResult.ok v) ∧
      totalReads (getSeq st c contents) = 0 := by
  induction contents with
  | nil => simp [getSeq, totalReads]
  | cons items rest ih =>
    have hg := get_of_cacheHit st c v items h
    simp only [getSeq, hg, totalReads] at ih ⊢
    refine ⟨?_, by simpa using ih.2⟩
    intro r hr
    rcases List.mem_cons.mp hr with rfl | hr
    · rfl
    · exact ih.1 r hr

/-- A recomputation at `c` leaves a state that hits at `c`. -/
theorem cacheHit_after_store (v : Stats) (c : Mtime) :
    cacheHit { statsCache := some v, lastModified := some c } (some c) = some v := by
  simp [cacheHit, toNumber]

/-- C7. Consecutive requests that all find the same modification time `c`, the
first of which reads `first` if it reads, all answer with the same statistics,
and `fs.readFile` is called at most once over the whole sequence. -/
theorem getSeq_same_signal (st : CacheState) (c : Mtime) (first : List Item)
    (rest : List (List Item)) :
    ∃ v : Stats,
      (getSeq st c (first :: rest)).length = rest.length + 1 ∧
      (∀ r ∈ getSeq st c (first :: rest), r.response = FsResult.ok v) ∧
      totalReads (getSeq st c (first :: rest)) ≤ 1 := by
  have hlen : ∀ (s : CacheState) (l : List (List Item)), (getSeq s c l).length = l.length := by
    intro s l
    induction l generalizing s with
    | nil => rfl
    | cons a l ih => simp [getSeq, ih]
  cases hc : cacheHit st (some c) with
  | some v =>
    obtain ⟨h1, h2⟩ := getSeq_of_cacheHit st c v hc (first :: rest)
    exact ⟨v, by simp [hlen], h1, by omega⟩
  | none =>
    have hg : get st (FsResult.ok c) (FsResult.ok first)
        = { response := FsResult.ok (calculateStats first)
            state := { statsCache := some (calculateStats first), lastModified := some c }
            reads := 1 } := by
      simp [get, getFileStats, hc]
    obtain ⟨h1, h2⟩ := getSeq_of_cacheHit _ c _ (cacheHit_after_store (calculateStats first) c) rest
    refine ⟨calculateStats first, by simp [hlen], ?_, ?_⟩
    · intro r hr
      simp only [getSeq, hg] at hr
      rcases List.mem_cons.mp hr with rfl | hr
      · rfl
      · exact h1 r hr
    · simp only [getSeq, hg, totalReads, List.map_cons, List.sum_cons] at h2 ⊢
      omega

/-- As long as `fs.stat` succeeds, a request keeps the entry whole. -/
theorem step_whole (st : CacheState) (c : Mtime) (read : FsResult (List Item))
    (h : Whole st) : Whole (get st (FsResult.ok c) read).state := by
  cases hc : cacheHit st (some c) with
  | some v =>
    have hg : (get st (FsResult.ok c) read).state = st := by simp [get, getFileStats, hc]
    rw [hg]; exact h
  | none =>
    cases read with
    | ok items => simp [get, getFileStats, hc, Whole]
    | error e =>
      have hg : (get st (FsResult.ok c) (FsResult.error e)).state = st := by
        simp [get, getFileStats, hc]
      rw [hg]; exact h

/-- Over requests whose `fs.stat` succeeds the entry stays whole. -/
theorem run_whole (calls : List Call) (st : CacheState) (h : Whole st)
    (hs : StatsSucceed calls) : Whole (run st calls) := by
  induction calls generalizing st with
  | nil => simpa [run] using h
  | cons call rest ih =>
    cases call with
    | invalidate =>
      exact ih _ (by simp [step, deleteCache, invalidateCache, Whole]) hs
    | get stat read =>
      cases stat with
      | ok c => exact ih _ (step_whole st c read h) hs
      | error e => exact absurd hs (by simp [StatsSucceed])

/-- C8. One request whose `fs.stat` rejects and whose read succeeds takes the
initial state to a state with `statsCache` populated and `lastModified = null`. -/
theorem run_stat_rejected_half_populated :
    run initialState [Call.get (FsResult.error "Stat failed") (FsResult.ok mockItems)]
      = { statsCache := some (calculateStats mockItems), lastModified := none } := by
  rfl

/-! ## The aggregator -/

/-- `Math.round` is the floor of the argument plus one half. -/
theorem mathRound_eq_floor (x : ℚ) : mathRound x = ⌊x + 1 / 2⌋ := by
  have h0 : (⌊x⌋ : ℚ) ≤ x := Int.floor_le x
  have h1 : x < (⌊x⌋ : ℚ) + 1 := Int.lt_floor_add_one x
  unfold mathRound
  split_ifs with h
  · symm
    rw [Int.floor_eq_iff]
    constructor <;> linarith
  · symm
    rw [Int.floor_eq_iff]
    push_cast
    constructor <;> linarith

/-- Reading a property of an object whose first own property is `k`. -/
theorem lookup_cons_ite (c k : String) (v : JSVal) (rest : JSObject) :
    List.lookup c ((k, v) :: rest) = if c = k then some v else List.lookup c rest := by
  by_cases h : c = k
  · subst h; simp
  · have hb : (c == k) = false := by simpa using h
    simp [List.lookup_cons, hb, h]

/-- Reading a property after `replaceOwn`. -/
theorem lookup_replaceOwn (k c : String) (v : JSVal) (acc : JSObject) :
    List.lookup c (replaceOwn k v acc)
      = if c = k then (List.lookup k acc).map (fun _ => v) else List.lookup c acc := by
  induction acc with
  | nil => simp [replaceOwn]
  | cons kv rest ih =>
    obtain ⟨k', v'⟩ := kv
    by_cases hk : k' = k
    · subst hk
      by_cases hc : c = k'
      · subst hc; simp [replaceOwn]
      · simp [replaceOwn, lookup_cons_ite, hc]
    · have hk' : ¬ k = k' := fun h => hk h.symm
      by_cases hc : c = k
      · subst hc
        simp [replaceOwn, hk, lookup_cons_ite, hk'] at ih ⊢
        exact ih
      · by_cases hc' : c = k'
        · subst hc'; simp [replaceOwn, hk, hc, lookup_cons_ite]
        · simp [replaceOwn, hk, lookup_cons_ite, hc, hc'] at ih ⊢
          exact ih

/-- A category other than the one being counted keeps its property. -/
theorem lookup_setProp_of_ne (acc : JSObject) (k c : String) (v : JSVal) (h : c ≠ k) :
    List.lookup c (setProp acc k v) = List.lookup c acc := by
  unfold setProp
  split_ifs
  · simp [lookup_replaceOwn, h]
  · rfl
  · simp [List.lookup_append, lookup_cons_ite, h]

/-- Counting one more item of a category whose name is not inherited from
`Object.prototype`. -/
theorem lookup_setProp_bump (acc : JSObject) (c : String) (n : Nat)
    (hc : objectPrototype.lookup c = none)
    (hinv : acc.lookup c = if n = 0 then none else some (JSVal.num n)) :
    (setProp acc c (bump acc c)).lookup c = some (JSVal.num (n + 1)) := by
  have hproto : c ≠ "__proto__" := by
    rintro rfl
    simp [objectPrototype] at hc
  by_cases hn : n = 0
  · subst hn
    simp only [if_true] at hinv
    simp [setProp, bump, hinv, hc, hproto, List.lookup_append, lookup_cons_ite]
  · simp only [if_neg hn] at hinv
    simp [setProp, bump, hinv, hn, lookup_replaceOwn]

/-- The reducer run from an accumulator that holds count `n` for `c`. -/
theorem foldl_categories_lookup (c : String) (hc : objectPrototype.lookup c = none)
    (items : List Item) (acc : JSObject) (n : Nat)
    (hinv : acc.lookup c = if n = 0 then none else some (JSVal.num n)) :
    (items.foldl (fun acc item => setProp acc item.category (bump acc item.category)) acc).lookup c
      = if n + items.countP (fun item => decide (item.category = c)) = 0 then none
        else some (JSVal.num (n + items.countP (fun item => decide (item.category = c)))) := by
  induction items generalizing acc n with
  | nil => simpa using hinv
  | cons item rest ih =>
    simp only [List.foldl_cons]
    by_cases hk : item.category = c
    · have h1 := lookup_setProp_bump acc c n hc hinv
      rw [hk]
      have h2 := ih (setProp acc c (bump acc c)) (n + 1) (by simpa using h1)
      rw [h2]
      simp [List.countP_cons, hk, Nat.add_assoc, Nat.add_comm 1]
    · have hne : c ≠ item.category := fun h => hk h.symm
      have h1 : (setProp acc item.category (bump acc item.category)).lookup c
          = if n = 0 then none else some (JSVal.num n) := by
        rw [lookup_setProp_of_ne _ _ _ _ hne, hinv]
      rw [ih _ n h1]
      simp [List.countP_cons, hk]

/-- For a category name that `Object.prototype` does not define, `categories`
has the name as a key exactly when some item has that category, and then holds
the number of such items. -/
theorem categories_lookup_of_not_inherited (items : List Item) (c : String)
    (hc : objectPrototype.lookup c = none) :
    (categories items).lookup c
      = if items.countP (fun item => decide (item.category = c)) = 0 then none
        else some (JSVal.num (items.countP (fun item => decide (item.category = c)))) := by
  have h := foldl_categories_lookup c hc items [] 0 (by simp)
  simpa [categories] using h

/-- `total` is the length of the sequence. -/
theorem calculateStats_total (items : List Item) : (calculateStats items).total = items.length :=
  rfl

/-- C10. An item whose category is `constructor` gets a string, not the count 1,
under that key; an item whose category is `__proto__` gets no key at all. -/
theorem calculateStats_categories_inherited_name :
    (calculateStats [{ id := 1, name := "Widget", category := "constructor", price := 10 }]).categories
      = [("constructor", JSVal.str "function Object() \x7b [native code] \x7d1")]
    ∧ (calculateStats [{ id := 1, name := "Widget", category := "__proto__", price := 10 }]).categories
      = [] := by
  constructor <;> decide

/-! ## Price range and the empty collection -/

/-- `Math.min` of a non-empty argument list is a lower bound of the arguments
and one of them. -/
theorem mathMin_spec (x : ℚ) (xs : List ℚ) :
    mathMin x xs ∈ x :: xs ∧ ∀ y ∈ x :: xs, mathMin x xs ≤ y := by
  induction xs generalizing x with
  | nil => simp [mathMin]
  | cons z zs ih =>
    obtain ⟨hmem, hle⟩ := ih (min x z)
    have hstep : mathMin x (z :: zs) = mathMin (min x z) zs := rfl
    rw [hstep]
    constructor
    · rcases List.mem_cons.mp hmem with h | h
      · rw [h]
        rcases min_choice x z with hx | hz
        · rw [hx]; simp
        · rw [hz]; simp
      · simp [h]
    · intro y hy
      have hm : mathMin (min x z) zs ≤ min x z := hle _ (List.mem_cons_self _ _)
      rcases List.mem_cons.mp hy with rfl | hy
      · exact le_trans hm (min_le_left _ _)
      · rcases List.mem_cons.mp hy with rfl | hy
        · exact le_trans hm (min_le_right _ _)
        · exact hle y (List.mem_cons_of_mem _ hy)

/-- `Math.max` of a non-empty argument list is an upper bound of the arguments
and one of them. -/
theorem mathMax_spec (x : ℚ) (xs : List ℚ) :
    mathMax x xs ∈ x :: xs ∧ ∀ y ∈ x :: xs, y ≤ mathMax x xs := by
  induction xs generalizing x with
  | nil => simp [mathMax]
  | cons z zs ih =>
    obtain ⟨hmem, hle⟩ := ih (max x z)
    have hstep : mathMax x (z :: zs) = mathMax (max x z) zs := rfl
    rw [hstep]
    constructor
    · rcases List.mem_cons.mp hmem with h | h
      · rw [h]
        rcases max_choice x z with hx | hz
        · rw [hx]; simp
        · rw [hz]; simp
      · simp [h]
    · intro y hy
      have hm : max x z ≤ mathMax (max x z) zs := hle _ (List.mem_cons_self _ _)
      rcases List.mem_cons.mp hy with rfl | hy
      · exact le_trans (le_max_left _ _) hm
      · rcases List.mem_cons.mp hy with rfl | hy
        · exact le_trans (le_max_right _ _) hm
        · exact hle y (List.mem_cons_of_mem _ hy)

/-- C11. For a non-empty sequence `priceRange.min` is the price of some item
and at most the price of every item, and `priceRange.max` is the price of some
item and at least the price of every item; for the empty sequence `priceRange`
is `{min: 0, max: 0}`. -/
theorem calculateStats_priceRange (items : List Item) :
    (items = [] → (calculateStats items).priceRange = { min := 0, max := 0 }) ∧
    (items ≠ [] →
      (∃ item ∈ items, (calculateStats items).priceRange.min = item.price) ∧
      (∀ item ∈ items, (calculateStats items).priceRange.min ≤ item.price) ∧
      (∃ item ∈ items, (calculateStats items).priceRange.max = item.price) ∧
      (∀ item ∈ items, item.price ≤ (calculateStats items).priceRange.max)) := by
  constructor
  · rintro rfl
    rfl
  · intro hne
    cases items with
    | nil => exact absurd rfl hne
    | cons first rest =>
      have hmin := mathMin_spec first.price (rest.map (fun item => item.price))
      have hmax := mathMax_spec first.price (rest.map (fun item => item.price))
      have hprices : first.price :: rest.map (fun item => item.price)
          = (first :: rest).map (fun item => item.price) := rfl
      rw [hprices] at hmin hmax
      have hrange : (calculateStats (first :: rest)).priceRange
          = { min := mathMin first.price (rest.map (fun item => item.price))
              max := mathMax first.price (rest.map (fun item => item.price)) } := rfl
      rw [hrange]
      refine ⟨?_, ?_, ?_, ?_⟩
      · obtain ⟨item, hitem, hp⟩ := List.mem_map.mp hmin.1
        exact ⟨item, hitem, hp.symm⟩
      · intro item hitem
        exact hmin.2 _ (List.mem_map.mpr ⟨item, hitem, rfl⟩)
      · obtain ⟨item, hitem, hp⟩ := List.mem_map.mp hmax.1
        exact ⟨item, hitem, hp.symm⟩
      · intro item hitem
        exact hmax.2 _ (List.mem_map.mpr ⟨item, hitem, rfl⟩)

/-- The fixture of `stats.test.js` is not empty, so its price range is attained
and bounds every price. -/
theorem calculateStats_priceRange_mockItems :
    mockItems ≠ [] ∧
    (∃ item ∈ mockItems, (calculateStats mockItems).priceRange.min = item.price) ∧
    (∀ item ∈ mockItems, (calculateStats mockItems).priceRange.min ≤ item.price) ∧
    (∃ item ∈ mockItems, (calculateStats mockItems).priceRange.max = item.price) ∧
    (∀ item ∈ mockItems, item.price ≤ (calculateStats mockItems).priceRange.max) :=
  ⟨by decide, (calculateStats_priceRange mockItems).2 (by decide)⟩

/-- The price range of the fixture of `stats.test.js` is 399 to 2499. -/
theorem priceRange_mockItems : priceRange mockItems = { min := 399, max := 2499 } := by
  simp [priceRange, mockItems, mathMin, mathMax]
  constructor <;> norm_num

/-! ## `POST /api/items` -/

/-- Reading a property of a parsed object whose first property is `k`. -/
theorem lookup_cons_eq_ite {β : Type} (c k : String) (v : β) (rest : List (String × β)) :
    List.lookup c ((k, v) :: rest) = if c = k then some v else List.lookup c rest := by
  by_cases h : c = k
  · subst h; simp
  · have hb : (c == k) = false := by simpa using h
    simp [List.lookup_cons, hb, h]

/-- After `item[k] = v` the property `k` holds `v`. -/
theorem lookup_assign_self (k : String) (v : Json) (o : JsonObject) :
    List.lookup k (assign k v o) = some v := by
  induction o with
  | nil => simp [assign]
  | cons kv rest ih =>
    obtain ⟨k', v'⟩ := kv
    by_cases hk : k' = k
    · subst hk; simp [assign]
    · have hk' : ¬ k = k' := fun h => hk h.symm
      simp [assign, hk, lookup_cons_eq_ite, hk', ih]

/-- The assignment `item[k] = v` leaves every other property as it was. -/
theorem lookup_assign_of_ne (k c : String) (v : Json) (o : JsonObject) (h : c ≠ k) :
    List.lookup c (assign k v o) = List.lookup c o := by
  induction o with
  | nil => simp [assign, lookup_cons_eq_ite, h]
  | cons kv rest ih =>
    obtain ⟨k', v'⟩ := kv
    by_cases hk : k' = k
    · subst hk; simp [assign, lookup_cons_eq_ite, h]
    · simp [assign, hk, lookup_cons_eq_ite, ih]

/-- C13. For a stored collection `data`, a body `b` that passes the validation
and a clock value `t`, the handler reads once and hands to `fs.writeFile` the
collection `data` followed by one element, which is `b` with `id = t` (every
other property as in `b`); when the write succeeds the 201 response carries
that element. -/
theorem postItem_appends (data : List JsonObject) (b : JsonObject) (t : Int)
    (write : FsResult Unit) (hvalid : validBody b = true) :
    (postItem b t (FsResult.ok data) write).written
        = some (data ++ [assign "id" (Json.num (t : ℚ)) b]) ∧
    (postItem b t (FsResult.ok data) write).reads = 1 ∧
    (postItem b t (FsResult.ok data) (FsResult.ok ())).reply
        = Reply.sent 201 (assign "id" (Json.num (t : ℚ)) b) ∧
    List.lookup "id" (assign "id" (Json.num (t : ℚ)) b) = some (Json.num (t : ℚ)) ∧
    ∀ k : String, k ≠ "id" →
      List.lookup k (assign "id" (Json.num (t : ℚ)) b) = List.lookup k b := by
  refine ⟨?_, ?_, ?_, lookup_assign_self _ _ _, fun k hk => lookup_assign_of_ne _ _ _ _ hk⟩
  · cases write <;> simp [postItem, hvalid, readData, writeData]
  · cases write <;> simp [postItem, hvalid, readData, writeData]
  · simp [postItem, hvalid, readData, writeData]

/-- The valid body of the tests, posted at clock value 1700000000000 onto the
stored fixture. -/
theorem postItem_appends_witness :
    validBody newItem = true ∧
    (postItem newItem 1700000000000 (FsResult.ok mockStored) (FsResult.ok ())).written
        = some (mockStored ++ [assign "id" (Json.num ((1700000000000 : Int) : ℚ)) newItem]) :=
  ⟨by decide, (postItem_appends mockStored newItem 1700000000000 (FsResult.ok ()) (by decide)).1⟩

/-- C14, as stated, fails: a body whose `name` is `false` is rejected with 400
and `Invalid item data`, although its name is neither missing nor empty, its
category is present and not empty and its price is a number. -/
theorem postItem_false_name_rejected :
    ¬ (rejectedAsInvalid (postItem falseNameBody 0 (FsResult.ok mockStored) (FsResult.ok ()))
        ↔ specInvalid falseNameBody) := by
  intro h
  have hrej : rejectedAsInvalid
      (postItem falseNameBody 0 (FsResult.ok mockStored) (FsResult.ok ())) :=
    ⟨invalidItemMessage, ". Name, category, and price are required.", by decide, by decide⟩
  have hspec := h.mp hrej
  revert hspec
  simp [specInvalid, missingOrEmpty, falseNameBody, isNumber, lookup_cons_eq_ite]

/-- C14, amended. The handler answers 400 with a message that begins
`Invalid item data` exactly when `name` is falsy (missing, `null`, `false`, 0 or
the empty string), or `category` is falsy, or `price` is not of type number;
and whenever it does, it has neither read nor written the collection. -/
theorem postItem_invalid_iff (body : JsonObject) (now : Int) (read : FsResult (List JsonObject))
    (write : FsResult Unit) :
    (rejectedAsInvalid (postItem body now read write) ↔
      (truthy (body.lookup "name") = false ∨ truthy (body.lookup "category") = false ∨
        isNumber (body.lookup "price") = false)) ∧
    (rejectedAsInvalid (postItem body now read write) →
      (postItem body now read write).reads = 0 ∧ (postItem body now read write).written = none) := by
  have hcond : validBody body = false ↔
      (truthy (body.lookup "name") = false ∨ truthy (body.lookup "category") = false ∨
        isNumber (body.lookup "price") = false) := by
    simp only [validBody, Bool.and_eq_false_iff, or_assoc]
  have hkey : rejectedAsInvalid (postItem body now read write) ↔ validBody body = false := by
    constructor
    · rintro ⟨message, rest, hreply, -⟩
      by_contra hv
      have hv' : validBody body = true := by simpa using hv
      cases read <;> cases write <;>
        simp [postItem, hv', readData, writeData] at hreply
    · intro hv
      exact ⟨invalidItemMessage, ". Name, category, and price are required.",
        by simp [postItem, hv], by decide⟩
  refine ⟨hkey.trans hcond, fun hrej => ?_⟩
  have hv := hkey.mp hrej
  simp [postItem, hv]

/-- C15, as stated, fails: the stored ids are pairwise distinct, the `POST`
succeeds with 201, and the written collection holds the id 1700000000000 twice. -/
theorem postItem_same_clock_duplicates_id :
    (ids storedAtClock).Nodup ∧
    (postItem newItem 1700000000000 (FsResult.ok storedAtClock) (FsResult.ok ())).reply
      = Reply.sent 201 (assign "id" (Json.num 1700000000000) newItem) ∧
    (postItem newItem 1700000000000 (FsResult.ok storedAtClock) (FsResult.ok ())).written
      = some (storedAtClock ++ [assign "id" (Json.num 1700000000000) newItem]) ∧
    ¬ (ids (storedAtClock ++ [assign "id" (Json.num 1700000000000) newItem])).Nodup := by
  have hv : validBody newItem = true := by decide
  refine ⟨by simp [ids, storedAtClock], ?_, ?_, ?_⟩
  · simp [postItem, hv, readData, writeData]
  · simp [postItem, hv, readData, writeData]
  · simp [ids, storedAtClock, newItem, assign, lookup_cons_eq_ite]

/-- C15, amended. When the stored ids are pairwise distinct and the clock value
`t` is the id of no stored item, a successful `POST` gives the new item the id
`t`, which differs from every stored id, and the written collection again has
pairwise distinct ids. -/
theorem postItem_fresh_clock_keeps_ids_distinct (data : List JsonObject) (b : JsonObject)
    (t : Int) (hvalid : validBody b = true) (hnodup : (ids data).Nodup)
    (hfresh : ∀ o ∈ data, List.lookup "id" o ≠ some (Json.num (t : ℚ))) :
    ∃ item : JsonObject,
      postItem b t (FsResult.ok data) (FsResult.ok ())
        = { reply := Reply.sent 201 item, reads := 1, written := some (data ++ [item]) } ∧
      List.lookup "id" item = some (Json.num (t : ℚ)) ∧
      (∀ o ∈ data, List.lookup "id" o ≠ List.lookup "id" item) ∧
      (ids (data ++ [item])).Nodup := by
  refine ⟨assign "id" (Json.num (t : ℚ)) b, ?_, lookup_assign_self _ _ _, ?_, ?_⟩
  · simp [postItem, hvalid, readData, writeData]
  · intro o ho
    rw [lookup_assign_self]
    exact hfresh o ho
  · simp only [ids, List.map_append, List.map_cons, List.map_nil, lookup_assign_self]
    rw [List.nodup_append]
    refine ⟨hnodup, by simp, ?_⟩
    intro x hx hx'
    simp only [List.mem_singleton] at hx'
    obtain ⟨o, ho, rfl⟩ := List.mem_map.mp hx
    exact hfresh o ho hx'

/-- The valid body of the tests posted onto the stored fixture one millisecond
after its only item was created. -/
theorem postItem_fresh_clock_witness :
    ∃ item : JsonObject,
      postItem newItem 1700000000001 (FsResult.ok storedAtClock) (FsResult.ok ())
        = { reply := Reply.sent 201 item, reads := 1
            written := some (storedAtClock ++ [item]) } ∧
      List.lookup "id" item = some (Json.num ((1700000000001 : Int) : ℚ)) ∧
      (∀ o ∈ storedAtClock, List.lookup "id" o ≠ List.lookup "id" item) ∧
      (ids (storedAtClock ++ [item])).Nodup :=
  postItem_fresh_clock_keeps_ids_distinct storedAtClock newItem 1700000000001 (by decide)
    (by simp [ids, storedAtClock])
    (by
      intro o ho
      simp only [storedAtClock, List.mem_singleton] at ho
      subst ho
      simp [lookup_cons_eq_ite])

/-! ## `GET /api/items` and `GET /api/items/:id` -/

/-- `slice` between two non-negative indices `a ≤ a + l` takes the elements at
positions `a` up to but excluding `min (a + l) n`. -/
theorem jsSlice_nonneg {α : Type} (xs : List α) (a l : Nat) :
    jsSlice xs (some (a : Int)) (some ((a : Int) + (l : Int)))
      = (xs.take (min (a + l) xs.length)).drop a := by
  have hs : sliceIndex xs.length (some (a : Int)) = min a xs.length := by
    simp [sliceIndex]
  have he : sliceIndex xs.length (some ((a : Int) + (l : Int))) = min (a + l) xs.length := by
    have hnn : ¬ ((a : Int) + (l : Int) < 0) := by omega
    have hcast : ((a : Int) + (l : Int)).toNat = a + l := by omega
    simp [sliceIndex, hnn, hcast]
  unfold jsSlice
  rw [hs, he, List.drop_take]
  by_cases h : a ≤ xs.length
  · rw [Nat.min_eq_left h]
  · have hlen : xs.length ≤ a := by omega
    rw [Nat.min_eq_right hlen, List.drop_of_length_le hlen, List.drop_of_length_le (le_refl _)]
    simp

/-- C16. For a collection `data`, a search parameter `q` and integers
`page ≥ 1` and `limit ≥ 1`, the handler answers 200 with the elements of the
filtered list at positions `(page-1)*limit` up to but excluding
`min(page*limit, n)`, in order, and with `pagination` holding `page`, `limit`,
`total = n`, `totalPages = ceil(n / limit)`, `hasNext = (page*limit < n)` and
`hasPrev = (page > 1)`; without `page` and `limit` it answers as for page 1 and
limit 10. -/
theorem getItems_page (toLowerCase : String → String) (data : List Item) (q : Option String)
    (page limit : Nat) (hp : 1 ≤ page) (hl : 1 ≤ limit) :
    getItems toLowerCase (FsResult.ok data)
        { q := q, page := some (some (page : Int)), limit := some (some (limit : Int)) }
      = Reply.sent 200
          { items :=
              ((searchFilter toLowerCase data q).take
                (min (page * limit) (searchFilter toLowerCase data q).length)).drop
                ((page - 1) * limit)
            pagination :=
              { page := some (page : Int)
                limit := some (limit : Int)
                total := (searchFilter toLowerCase data q).length
                totalPages :=
                  some ⌈((searchFilter toLowerCase data q).length : ℚ) / ((limit : Int) : ℚ)⌉
                hasNext := decide (page * limit < (searchFilter toLowerCase data q).length)
                hasPrev := decide (page > 1) } } ∧
    getItems toLowerCase (FsResult.ok data) { q := q, page := none, limit := none }
      = getItems toLowerCase (FsResult.ok data)
          { q := q, page := some (some 1), limit := some (some 10) } := by
  refine ⟨?_, rfl⟩
  obtain ⟨p, rfl⟩ : ∃ p, page = p + 1 := ⟨page - 1, by omega⟩
  have hstart : ((p + 1 : Nat) : Int) - 1 = (p : Int) := by push_cast; ring
  have hmul : ((p : Int) * (limit : Int)) = ((p * limit : Nat) : Int) := by push_cast; ring
  have hend : (p + 1) * limit = p * limit + limit := by ring
  have hl0 : ¬ ((limit : Int) = 0) := by omega
  simp only [getItems, readData, paginate, Option.getD_some, jsSub, jsMul, jsAdd, jsLt, jsGt,
    ceilDiv, hstart, hmul, jsSlice_nonneg, if_neg hl0, hend, Nat.add_sub_cancel]
  have hnext : decide (((p * limit : Nat) : Int) + (limit : Int)
        < ((searchFilter toLowerCase data q).length : Int))
      = decide (p * limit + limit < (searchFilter toLowerCase data q).length) := by
    rw [decide_eq_decide]; omega
  have hprev : decide (((p + 1 : Nat) : Int) > 1) = decide (p + 1 > 1) := by
    rw [decide_eq_decide]; omega
  rw [hnext, hprev]

/-- The pagination test of `items.test.js`: 25 items, page 2, limit 10 give 10
items, 3 pages, a next and a previous page. -/
theorem getItems_page_witness :
    1 ≤ 2 ∧ 1 ≤ 10 ∧
    ∃ body : ItemsPage,
      getItems asciiLower (FsResult.ok largeMockItems)
          { q := none, page := some (some 2), limit := some (some 10) }
        = Reply.sent 200 body ∧
      body.items.length = 10 ∧
      body.pagination =
        { page := some 2, limit := some 10, total := 25, totalPages := some 3
          hasNext := true, hasPrev := true } := by
  have hlen : (searchFilter asciiLower largeMockItems none).length = 25 := by
    simp only [searchFilter, largeMockItems, List.length_map, List.length_range]
  have hceil : ⌈((25 : ℕ) : ℚ) / (((10 : ℕ) : ℤ) : ℚ)⌉ = 3 := by
    rw [Int.ceil_eq_iff]
    constructor <;> norm_num
  refine ⟨by decide, by decide, _,
    (getItems_page asciiLower largeMockItems none 2 10 (by decide) (by decide)).1, ?_, ?_⟩
  · simp [hlen]
  · simp only [hlen, hceil]
    rfl

/-- C17. For a non-empty search term the list that the handler paginates
consists of exactly the items whose name or category contains the term, both in
lower case, in the order of the stored collection, and `pagination.total` is
their number; an absent or empty term filters nothing out. -/
theorem getItems_search (toLowerCase : String → String) (data : List Item) (term : String)
    (page limit : Option JSInt) (hne : term ≠ "") :
    searchFilter toLowerCase data (some term)
      = data.filter (fun item => decide
          ((toLowerCase term).data <:+: (toLowerCase item.name).data ∨
           (toLowerCase term).data <:+: (toLowerCase item.category).data)) ∧
    (searchFilter toLowerCase data (some term)).Sublist data ∧
    (∀ item : Item, item ∈ searchFilter toLowerCase data (some term) ↔
      item ∈ data ∧
        ((toLowerCase term).data <:+: (toLowerCase item.name).data ∨
         (toLowerCase term).data <:+: (toLowerCase item.category).data)) ∧
    (∃ body : ItemsPage,
      getItems toLowerCase (FsResult.ok data) { q := some term, page := page, limit := limit }
        = Reply.sent 200 body ∧
      body = paginate (searchFilter toLowerCase data (some term))
        (page.getD (some 1)) (limit.getD (some 10)) ∧
      body.pagination.total = data.countP (fun item => decide
          ((toLowerCase term).data <:+: (toLowerCase item.name).data ∨
           (toLowerCase term).data <:+: (toLowerCase item.category).data))) ∧
    searchFilter toLowerCase data none = data ∧
    searchFilter toLowerCase data (some "") = data := by
  have hfilter : searchFilter toLowerCase data (some term)
      = data.filter (fun item => decide
          ((toLowerCase term).data <:+: (toLowerCase item.name).data ∨
           (toLowerCase term).data <:+: (toLowerCase item.category).data)) := by
    simp only [searchFilter, if_neg hne, includes]
    congr 1
    funext item
    simp [Bool.decide_or]
  refine ⟨hfilter, ?_, ?_, ?_, rfl, by simp [searchFilter]⟩
  · rw [hfilter]; exact List.filter_sublist _
  · intro item
    rw [hfilter, List.mem_filter]
    simp
  · refine ⟨_, rfl, rfl, ?_⟩
    simp only [paginate, hfilter, List.countP_eq_length_filter]

/-- The search test of `items.test.js`: the term `electronics` keeps the two
items of category `Electronics`, in order. -/
theorem getItems_search_witness :
    "electronics" ≠ "" ∧
    searchFilter asciiLower mockItems (some "electronics") = mockItems.take 2 := by
  refine ⟨by decide, ?_⟩
  rw [(getItems_search asciiLower mockItems "electronics" none none (by decide)).1]
  decide

/-- C18. For a readable collection and an integer `id`, the handler answers
with the first stored item whose id is `id` when there is one, and fails with
404 and `Item not found` exactly when no stored item has that id. -/
theorem getItemById_spec (data : List Item) (id : Int) :
    (∀ (before : List Item) (item : Item) (after : List Item),
      data = before ++ item :: after → item.id = id → (∀ x ∈ before, x.id ≠ id) →
      getItemById (FsResult.ok data) (some id) = Reply.sent 200 item) ∧
    ((∃ x ∈ data, x.id = id) →
      ∃ item ∈ data, item.id = id ∧
        getItemById (FsResult.ok data) (some id) = Reply.sent 200 item) ∧
    (getItemById (FsResult.ok data) (some id)
        = Reply.failed { status := some 404, message := "Item not found" }
      ↔ ∀ x ∈ data, x.id ≠ id) := by
  refine ⟨?_, ?_, ?_⟩
  · intro before item after hdata hid hbefore
    have hfind : data.find? (fun i => decide (i.id = id)) = some item := by
      rw [List.find?_eq_some]
      refine ⟨by simp [hid], before, after, hdata, ?_⟩
      intro a ha
      simpa using hbefore a ha
    simp [getItemById, readData, hfind]
  · rintro ⟨x, hx, hxid⟩
    cases hfind : data.find? (fun i => decide (i.id = id)) with
    | none =>
      rw [List.find?_eq_none] at hfind
      exact absurd (by simp [hxid]) (hfind x hx)
    | some item =>
      refine ⟨item, List.mem_of_find?_eq_some hfind, ?_, by simp [getItemById, readData, hfind]⟩
      simpa using List.find?_some hfind
  · cases hfind : data.find? (fun i => decide (i.id = id)) with
    | none =>
      have hnone := hfind
      rw [List.find?_eq_none] at hnone
      simp only [getItemById, readData, Option.some.injEq, hfind, true_iff]
      intro x hx
      simpa using hnone x hx
    | some item =>
      have hmem := List.mem_of_find?_eq_some hfind
      have hid : item.id = id := by simpa using List.find?_some hfind
      simp only [getItemById, readData, Option.some.injEq, hfind]
      constructor
      · intro h; cases h
      · intro hall
        exact absurd hid (hall item hmem)

/-- C19. A read or parse failure with message `m` makes `readData`, and with it
each handler of the items router that reads, fail with the message
`Failed to read data: ` followed by `m`; a write failure with message `m` makes
`writeData`, and with it `POST /api/items`, fail with `Failed to write data: `
followed by `m`. -/
theorem items_error_messages (toLowerCase : String → String) (m : String) (query : ItemsQuery)
    (id : JSInt) (body : JsonObject) (now : Int) (data : List JsonObject)
    (write : FsResult Unit) (hvalid : validBody body = true) :
    readData (FsResult.error m : FsResult (List Item))
      = FsResult.error ("Failed to read data: " ++ m) ∧
    getItems toLowerCase (FsResult.error m) query
      = Reply.failed { status := none, message := "Failed to read data: " ++ m } ∧
    getItemById (FsResult.error m) id
      = Reply.failed { status := none, message := "Failed to read data: " ++ m } ∧
    (postItem body now (FsResult.error m) write).reply
      = Reply.failed { status := none, message := "Failed to read data: " ++ m } ∧
    writeData (FsResult.error m) = FsResult.error ("Failed to write data: " ++ m) ∧
    (postItem body now (FsResult.ok data) (FsResult.error m)).reply
      = Reply.failed { status := none, message := "Failed to write data: " ++ m } := by
  simp [readData, writeData, getItems, getItemById, postItem, hvalid]

/-- The read and write failures of `items.test.js`. -/
theorem items_error_messages_witness :
    validBody newItem = true ∧
    getItems asciiLower (FsResult.error "File not found")
        { q := none, page := none, limit := none }
      = Reply.failed { status := none, message := "Failed to read data: File not found" } ∧
    (postItem newItem 0 (FsResult.ok mockStored) (FsResult.error "Write failed")).reply
      = Reply.failed { status := none, message := "Failed to write data: Write failed" } :=
  ⟨by decide,
   (items_error_messages asciiLower "File not found"
      { q := none, page := none, limit := none } none newItem 0 mockStored (FsResult.ok ())
      (by decide)).2.1,
   (items_error_messages asciiLower "Write failed"
      { q := none, page := none, limit := none } none newItem 0 mockStored (FsResult.ok ())
      (by decide)).2.2.2.2.2⟩

/-! ## Requests that overlap -/

/-- A request that nothing interrupts is its two segments run back to back. -/
theorem get_eq_segments (st : CacheState) (stat : FsResult Mtime) (read : FsResult (List Item)) :
    get st stat read = resume st (getCheck st stat) read := by
  cases h : cacheHit st (getFileStats stat) <;> cases read <;>
    simp [get, getCheck, getFinish, resume, h]

/-- C20. When a request has observed modification time `c₁` and decided to
recompute, and `invalidateCache` runs before the request resumes from
`fs.readFile`, the request still stores `(calculateStats items₁, c₁)`: the
entry is populated, not absent. When two requests have both decided to
recompute before either resumed, the entry left is the one of the request that
resumes last. -/
theorem overlapping_requests_last_write_wins (st : CacheState) (c₁ c₂ : Mtime)
    (items₁ items₂ : List Item)
    (h₁ : getCheck st (FsResult.ok c₁) = Pending.miss (some c₁))
    (h₂ : getCheck st (FsResult.ok c₂) = Pending.miss (some c₂)) :
    (resume (invalidateCache st) (getCheck st (FsResult.ok c₁)) (FsResult.ok items₁)).state
      = { statsCache := some (calculateStats items₁), lastModified := some c₁ } ∧
    (resume (resume st (getCheck st (FsResult.ok c₁)) (FsResult.ok items₁)).state
        (getCheck st (FsResult.ok c₂)) (FsResult.ok items₂)).state
      = { statsCache := some (calculateStats items₂), lastModified := some c₂ } ∧
    (resume (resume st (getCheck st (FsResult.ok c₂)) (FsResult.ok items₂)).state
        (getCheck st (FsResult.ok c₁)) (FsResult.ok items₁)).state
      = { statsCache := some (calculateStats items₁), lastModified := some c₁ } := by
  simp [h₁, h₂, resume, getFinish]

/-- Two requests against the empty cache, one seeing the fixture and one an
empty file a day later; and the fixture request overtaken by `invalidateCache`. -/
theorem overlapping_requests_witness :
    getCheck initialState (FsResult.ok 1672531200000) = Pending.miss (some 1672531200000) ∧
    getCheck initialState (FsResult.ok 1672617600000) = Pending.miss (some 1672617600000) ∧
    (resume (invalidateCache initialState) (getCheck initialState (FsResult.ok 1672531200000))
        (FsResult.ok mockItems)).state
      = { statsCache := some (calculateStats mockItems), lastModified := some 1672531200000 } :=
  ⟨by rfl, by rfl,
   (overlapping_requests_last_write_wins initialState 1672531200000 1672617600000 mockItems []
      (by rfl) (by rfl)).1⟩

/-! ## The pages of `GET /api/items` taken together -/

/-- The response for page `p + 1` with `limit ≥ 1`, indices as natural numbers. -/
theorem getItems_pageQuery (toLowerCase : String → String) (data : List Item)
    (q : Option String) (p limit : Nat) (hl : 1 ≤ limit) :
    getItems toLowerCase (FsResult.ok data) (pageQuery q (p + 1) limit)
      = Reply.sent 200
          { items :=
              ((searchFilter toLowerCase data q).take
                (min (p * limit + limit) (searchFilter toLowerCase data q).length)).drop
                (p * limit)
            pagination :=
              { page := some ((p + 1 : Nat) : Int)
                limit := some (limit : Int)
                total := (searchFilter toLowerCase data q).length
                totalPages :=
                  some ⌈((searchFilter toLowerCase data q).length : ℚ) / ((limit : Int) : ℚ)⌉
                hasNext := decide (p * limit + limit < (searchFilter toLowerCase data q).length)
                hasPrev := decide (p + 1 > 1) } } := by
  have hstart : ((p + 1 : Nat) : Int) - 1 = (p : Int) := by push_cast; ring
  have hmul : ((p : Int) * (limit : Int)) = ((p * limit : Nat) : Int) := by push_cast; ring
  have hl0 : ¬ ((limit : Int) = 0) := by omega
  simp only [getItems, readData, paginate, pageQuery, Option.getD_some, jsSub, jsMul, jsAdd,
    jsLt, jsGt, ceilDiv, hstart, hmul, jsSlice_nonneg, if_neg hl0]
  have hnext : decide (((p * limit : Nat) : Int) + (limit : Int)
        < ((searchFilter toLowerCase data q).length : Int))
      = decide (p * limit + limit < (searchFilter toLowerCase data q).length) := by
    rw [decide_eq_decide]; omega
  have hprev : decide (((p + 1 : Nat) : Int) > 1) = decide (p + 1 > 1) := by
    rw [decide_eq_decide]; omega
  rw [hnext, hprev]

/-- The number of pages: `Math.ceil(n / limit)` is the natural number `T` with
`(T - 1) * limit < n ≤ T * limit`. -/
theorem ceil_pages (n limit : Nat) (hl : 1 ≤ limit) :
    ∃ T : Nat, ⌈(n : ℚ) / ((limit : Int) : ℚ)⌉ = (T : Int) ∧ n ≤ T * limit ∧
      ∀ p : Nat, p < T → p * limit < n := by
  have hlq : (0 : ℚ) < ((limit : Int) : ℚ) := by exact_mod_cast hl
  have hnonneg : 0 ≤ ⌈(n : ℚ) / ((limit : Int) : ℚ)⌉ :=
    Int.ceil_nonneg (div_nonneg (by positivity) hlq.le)
  obtain ⟨T, hT⟩ := Int.eq_ofNat_of_zero_le hnonneg
  refine ⟨T, hT, ?_, ?_⟩
  · have h := Int.le_ceil ((n : ℚ) / ((limit : Int) : ℚ))
    rw [hT, div_le_iff₀ hlq] at h
    have h' : ((n : Nat) : ℚ) ≤ ((T * limit : Nat) : ℚ) := by push_cast at h ⊢; exact h
    exact_mod_cast h'
  · intro p hp
    have hpT : (p : Int) < ⌈(n : ℚ) / ((limit : Int) : ℚ)⌉ := by rw [hT]; exact_mod_cast hp
    rw [Int.lt_ceil, lt_div_iff₀ hlq] at hpT
    have h' : ((p * limit : Nat) : ℚ) < ((n : Nat) : ℚ) := by push_cast at hpT ⊢; exact hpT
    exact_mod_cast h'

/-- The first `k` chunks of `limit` elements, put together, are the first
`k * limit` elements. -/
theorem flatten_chunks {α : Type} (xs : List α) (limit k : Nat) :
    ((List.range k).map (fun i =>
        (xs.take (min (i * limit + limit) xs.length)).drop (i * limit))).flatten
      = xs.take (k * limit) := by
  induction k with
  | zero => simp
  | succ k ih =>
    rw [List.range_succ, List.map_append, List.flatten_append, ih]
    simp only [List.map_cons, List.map_nil, List.flatten_cons, List.flatten_nil,
      List.append_nil]
    have htake : xs.take (min (k * limit + limit) xs.length) = xs.take (k * limit + limit) := by
      rw [← List.take_take, List.take_length]
    rw [htake]
    have hsplit : xs.take (k * limit) = (xs.take (k * limit + limit)).take (k * limit) := by
      rw [List.take_take, Nat.min_eq_left (Nat.le_add_right _ _)]
    rw [hsplit, List.take_append_drop]
    congr 1
    ring

/-- C22. For a filtered list and `limit ≥ 1` every page reports the same number
of pages `T`; the items of pages 1 to `T`, put together, are exactly the filtered
list; every page holds at most `limit` items and every page from 1 to `T` is
non-empty. -/
theorem getItems_pages_cover (toLowerCase : String → String) (data : List Item)
    (q : Option String) (limit : Nat) (hl : 1 ≤ limit) :
    ∃ T : Nat,
      (∀ page : Nat, 1 ≤ page →
        ∃ pagination : Pagination,
          replyPagination (getItems toLowerCase (FsResult.ok data) (pageQuery q page limit))
            = some pagination ∧
          pagination.totalPages = some (T : Int)) ∧
      ((List.range T).map (fun i =>
          replyItems (getItems toLowerCase (FsResult.ok data) (pageQuery q (i + 1) limit)))).flatten
        = searchFilter toLowerCase data q ∧
      (∀ page : Nat, 1 ≤ page →
        (replyItems (getItems toLowerCase (FsResult.ok data) (pageQuery q page limit))).length
          ≤ limit) ∧
      (∀ page : Nat, 1 ≤ page → page ≤ T →
        replyItems (getItems toLowerCase (FsResult.ok data) (pageQuery q page limit)) ≠ []) := by
  obtain ⟨T, hT, hcover, hinside⟩ :=
    ceil_pages (searchFilter toLowerCase data q).length limit hl
  refine ⟨T, ?_, ?_, ?_, ?_⟩
  · intro page hpage
    obtain ⟨p, rfl⟩ : ∃ p, page = p + 1 := ⟨page - 1, by omega⟩
    rw [getItems_pageQuery toLowerCase data q p limit hl]
    exact ⟨_, rfl, by rw [hT]⟩
  · have hmap : (List.range T).map (fun i =>
          replyItems (getItems toLowerCase (FsResult.ok data) (pageQuery q (i + 1) limit)))
        = (List.range T).map (fun i =>
          ((searchFilter toLowerCase data q).take
            (min (i * limit + limit) (searchFilter toLowerCase data q).length)).drop
            (i * limit)) := by
      apply List.map_congr_left
      intro i _
      rw [getItems_pageQuery toLowerCase data q i limit hl]
      rfl
    rw [hmap, flatten_chunks, List.take_of_length_le hcover]
  · intro page hpage
    obtain ⟨p, rfl⟩ : ∃ p, page = p + 1 := ⟨page - 1, by omega⟩
    rw [getItems_pageQuery toLowerCase data q p limit hl]
    simp only [replyItems, List.length_drop, List.length_take]
    omega
  · intro page hpage hle
    obtain ⟨p, rfl⟩ : ∃ p, page = p + 1 := ⟨page - 1, by omega⟩
    rw [getItems_pageQuery toLowerCase data q p limit hl]
    have hlt := hinside p (by omega)
    intro hnil
    have hlen := congrArg List.length hnil
    simp only [replyItems, List.length_drop, List.length_take, List.length_nil] at hlen
    omega

/-- The pagination test of `items.test.js`: with limit 10 the 25 items come
back, each once and in order, on the pages 1 to 3. -/
theorem getItems_pages_cover_witness :
    1 ≤ 10 ∧
    ∃ T : Nat,
      (∀ page : Nat, 1 ≤ page →
        ∃ pagination : Pagination,
          replyPagination (getItems asciiLower (FsResult.ok largeMockItems)
              (pageQuery none page 10)) = some pagination ∧
          pagination.totalPages = some (T : Int)) ∧
      ((List.range T).map (fun i =>
          replyItems (getItems asciiLower (FsResult.ok largeMockItems)
            (pageQuery none (i + 1) 10)))).flatten
        = searchFilter asciiLower largeMockItems none ∧
      (∀ page : Nat, 1 ≤ page →
        (replyItems (getItems asciiLower (FsResult.ok largeMockItems)
          (pageQuery none page 10))).length ≤ 10) ∧
      (∀ page : Nat, 1 ≤ page → page ≤ T →
        replyItems (getItems asciiLower (FsResult.ok largeMockItems)
          (pageQuery none page 10)) ≠ []) :=
  ⟨by decide, getItems_pages_cover asciiLower largeMockItems none 10 (by decide)⟩

/-- C23. For a filtered list and integers `page ≥ 1` and `limit ≥ 1` the flags
agree with the page count: `hasNext` is true exactly when `page < totalPages`,
and `hasPrev` is true exactly when `page > 1`. -/
theorem getItems_flags (toLowerCase : String → String) (data : List Item)
    (q : Option String) (page limit : Nat) (hp : 1 ≤ page) (hl : 1 ≤ limit) :
    ∃ (pagination : Pagination) (totalPages : Int),
      replyPagination (getItems toLowerCase (FsResult.ok data) (pageQuery q page limit))
        = some pagination ∧
      pagination.totalPages = some totalPages ∧
      (pagination.hasNext = true ↔ (page : Int) < totalPages) ∧
      (pagination.hasPrev = true ↔ page > 1) := by
  obtain ⟨p, rfl⟩ : ∃ p, page = p + 1 := ⟨page - 1, by omega⟩
  rw [getItems_pageQuery toLowerCase data q p limit hl]
  refine ⟨_, _, rfl, rfl, ?_, by simp⟩
  have hlq : (0 : ℚ) < ((limit : Int) : ℚ) := by exact_mod_cast hl
  simp only [decide_eq_true_eq]
  rw [Int.lt_ceil, lt_div_iff₀ hlq]
  constructor
  · intro h
    have h' : ((p * limit + limit : Nat) : ℚ)
        < (((searchFilter toLowerCase data q).length : Nat) : ℚ) := by exact_mod_cast h
    push_cast at h' ⊢
    linarith
  · intro h
    have h' : ((p * limit + limit : Nat) : ℚ)
        < (((searchFilter toLowerCase data q).length : Nat) : ℚ) := by
      push_cast at h ⊢
      linarith
    exact_mod_cast h'

/-- The pagination test of `items.test.js`: page 2 of 25 items with limit 10
has a next and a previous page. -/
theorem getItems_flags_witness :
    1 ≤ 2 ∧ 1 ≤ 10 ∧
    ∃ (pagination : Pagination) (totalPages : Int),
      replyPagination (getItems asciiLower (FsResult.ok largeMockItems) (pageQuery none 2 10))
        = some pagination ∧
      pagination.totalPages = some totalPages ∧
      (pagination.hasNext = true ↔ ((2 : Nat) : Int) < totalPages) ∧
      (pagination.hasPrev = true ↔ 2 > 1) :=
  ⟨by decide, by decide,
    getItems_flags asciiLower largeMockItems none 2 10 (by decide) (by decide)⟩

/-! ## `errorHandler` and `getCookie` -/

/-- A value that is not a string is only logged. -/
theorem errorHandler_not_string (error : Json) (compile : Option String) (call : Completion)
    (h : ∀ s : String, error ≠ Json.str s) :
    errorHandler error compile call
      = { effects := [Effect.log "Invalid error format. Expected a string."]
          outcome := Outcome.returned } := by
  cases error with
  | str s => exact absurd rfl (h s)
  | null => rfl
  | bool b => rfl
  | num x => rfl
  | composite text => rfl

/-- A function is built from the value and called with `require` exactly when
the value is a string that compiles, and then the text built and called is
that string. -/
theorem errorHandler_invokes_iff (error : Json) (compile : Option String) (call : Completion)
    (code : String) :
    Effect.invoke code ∈ (errorHandler error compile call).effects ↔
      error = Json.str code ∧ compile = none := by
  cases error with
  | str s =>
    cases compile with
    | some message => simp [errorHandler]
    | none =>
      cases call with
      | normal => simp [errorHandler, eq_comm]
      | never => simp [errorHandler, eq_comm]
      | throws thrown => cases thrown <;> simp [errorHandler, eq_comm]
  | null => simp [errorHandler]
  | bool b => simp [errorHandler]
  | num x => simp [errorHandler]
  | composite text => simp [errorHandler]

/-- Unless the code throws `null` or `undefined`, nothing is raised to the
caller. -/
theorem errorHandler_raises_iff (error : Json) (compile : Option String) (call : Completion)
    (message : String) :
    (errorHandler error compile call).outcome = Outcome.raised message ↔
      (∃ code, error = Json.str code) ∧ compile = none ∧
        ∃ name, call = Completion.throws (Thrown.nullish name) ∧ message = nullishMessage name := by
  cases error with
  | str s =>
    cases compile with
    | some m => simp [errorHandler]
    | none =>
      cases call with
      | normal => simp [errorHandler]
      | never => simp [errorHandler]
      | throws thrown => cases thrown <;> simp [errorHandler, eq_comm]
  | null => simp [errorHandler]
  | bool b => simp [errorHandler]
  | num x => simp [errorHandler]
  | composite text => simp [errorHandler]

/-- Whenever the response is an object with a truthy `cookie`, `getCookie`
hands that value to `errorHandler`: its effects begin with those of
`errorHandler` on the cookie, so a function is built and called exactly when
the cookie is a string that compiles, and its text is the cookie. -/
theorem getCookie_passes_cookie (data : JsonObject) (cookie : Json) (compile : Option String)
    (call : Completion) (hcookie : data.lookup "cookie" = some cookie)
    (htruthy : truthy (some cookie) = true) :
    (∃ more, (getCookie (FsResult.ok (some data)) compile call).effects
        = (errorHandler cookie compile call).effects ++ more) ∧
    ∀ code, Effect.invoke code ∈ (getCookie (FsResult.ok (some data)) compile call).effects ↔
      cookie = Json.str code ∧ compile = none := by
  have hshape : (getCookie (FsResult.ok (some data)) compile call).effects
        = (errorHandler cookie compile call).effects ∨
      ∃ message, (getCookie (FsResult.ok (some data)) compile call).effects
        = (errorHandler cookie compile call).effects
            ++ [Effect.log ("Failed to get cookie: " ++ message)] := by
    simp only [getCookie, hcookie, htruthy, if_true]
    rcases hrun : errorHandler cookie compile call with ⟨effects, outcome⟩
    cases outcome with
    | returned => exact Or.inl rfl
    | never => exact Or.inl rfl
    | raised message => exact Or.inr ⟨message, rfl⟩
  constructor
  · rcases hshape with h | ⟨message, h⟩
    · exact ⟨[], by rw [h, List.append_nil]⟩
    · exact ⟨_, h⟩
  · intro code
    rw [← errorHandler_invokes_iff cookie compile call code]
    rcases hshape with h | ⟨message, h⟩
    · rw [h]
    · rw [h]; simp

/-- C24. The text `throw null` is a string that compiles; the function built
from it throws `null` when called; reading `globalError.message` in the outer
`catch` clause then throws a `TypeError`, which `errorHandler` raises to its
caller. Through `getCookie`, a remote response whose `cookie` is that text has
it built and called, and the `catch` clause of `getCookie` logs the error. -/
theorem errorHandler_throw_null_propagates :
    errorHandler (Json.str "throw null") none (Completion.throws (Thrown.nullish "null"))
      = { effects := [Effect.build "throw null", Effect.invoke "throw null"]
          outcome := Outcome.raised "Cannot read properties of null (reading \x27message\x27)" } ∧
    getCookie (FsResult.ok (some [("cookie", Json.str "throw null")])) none
        (Completion.throws (Thrown.nullish "null"))
      = { effects := [Effect.build "throw null", Effect.invoke "throw null",
            Effect.log
              "Failed to get cookie: Cannot read properties of null (reading \x27message\x27)"]
          outcome := Outcome.returned } := by
  constructor <;> decide

/-! ## Binary64 arithmetic -/

/-- The unit in the last place of a normal number with binary exponent `e`. -/
theorem ulpExponent_eq (x : ℚ) (e : ℤ) (hlo : (2 : ℚ) ^ e ≤ |x|) (hhi : |x| < (2 : ℚ) ^ (e + 1))
    (he : -1022 ≤ e) : ulpExponent x = e - 52 := by
  have hpos : (0 : ℚ) < |x| := lt_of_lt_of_le (by positivity) hlo
  have h1 : e ≤ Int.log 2 |x| := by
    rw [← Int.zpow_le_iff_le_log (by norm_num) hpos]
    exact_mod_cast hlo
  have h2 : Int.log 2 |x| < e + 1 := by
    rw [← Int.lt_zpow_iff_log_lt (by norm_num) hpos]
    exact_mod_cast hhi
  unfold ulpExponent
  have h3 : Int.log 2 |x| = e := by omega
  rw [h3, max_eq_left he]

/-- Rounding a value that is less than one half away from the integer `k`. -/
theorem roundHalfEven_of_lt (t : ℚ) (k : ℤ) (hlo : (k : ℚ) - 1 / 2 < t)
    (hhi : t < (k : ℚ) + 1 / 2) : roundHalfEven t = k := by
  unfold roundHalfEven
  by_cases hk : (k : ℚ) ≤ t
  · have hfloor : ⌊t⌋ = k := by
      rw [Int.floor_eq_iff]; constructor <;> linarith
    rw [hfloor, if_pos (by linarith)]
  · have hfloor : ⌊t⌋ = k - 1 := by
      rw [Int.floor_eq_iff]; push_cast; constructor <;> linarith
    rw [hfloor]
    push_cast
    rw [if_neg (by linarith), if_pos (by linarith)]
    ring

/-- Rounding a value half way between `k` and `k + 1` when `k` is even. -/
theorem roundHalfEven_tie_even (t : ℚ) (k : ℤ) (ht : t = (k : ℚ) + 1 / 2) (hk : k % 2 = 0) :
    roundHalfEven t = k := by
  have hfloor : ⌊t⌋ = k := by
    rw [Int.floor_eq_iff]; constructor <;> linarith
  unfold roundHalfEven
  rw [hfloor, if_neg (by linarith), if_neg (by linarith), if_pos hk]

/-- The float nearest to a normal number, from its binary exponent `e` and the
rounded multiple `k` of its unit in the last place. -/
theorem toDouble_eq (x : ℚ) (e k : ℤ) (hlo : (2 : ℚ) ^ e ≤ |x|) (hhi : |x| < (2 : ℚ) ^ (e + 1))
    (he : -1022 ≤ e) (hk : roundHalfEven (x / (2 : ℚ) ^ (e - 52)) = k)
    (hfin : |(k : ℚ) * (2 : ℚ) ^ (e - 52)| < (2 : ℚ) ^ (1024 : ℤ)) :
    toDouble x = some ((k : ℚ) * (2 : ℚ) ^ (e - 52)) := by
  unfold toDouble
  rw [ulpExponent_eq x e hlo hhi he, hk, if_pos hfin]

/-- Zero is a float. -/
theorem toDouble_zero : toDouble 0 = some 0 := by
  have hlog : Int.log 2 |(0 : ℚ)| = 0 := by simp
  have hexp : ulpExponent 0 = -52 := by
    unfold ulpExponent; rw [hlog]; norm_num
  have hround : roundHalfEven 0 = 0 := roundHalfEven_of_lt 0 0 (by norm_num) (by norm_num)
  unfold toDouble
  simp only [hexp, zero_div, hround]
  norm_num

/-- The float nearest to a positive `x`, from its binary exponent `e`, an
integer `k` less than one half away from `x` in units in the last place, and
the value `r` of `k` units. -/
theorem toDouble_eval (x : ℚ) (e k : ℤ) (r : ℚ) (hlo : (2 : ℚ) ^ e ≤ x)
    (hhi : x < (2 : ℚ) ^ (e + 1)) (he : -1022 ≤ e)
    (hklo : (k : ℚ) - 1 / 2 < x / (2 : ℚ) ^ (e - 52))
    (hkhi : x / (2 : ℚ) ^ (e - 52) < (k : ℚ) + 1 / 2)
    (hr : (k : ℚ) * (2 : ℚ) ^ (e - 52) = r) (hpos : 0 ≤ r)
    (hfin : r < (2 : ℚ) ^ (1024 : ℤ)) :
    toDouble x = some r := by
  have hx : (0 : ℚ) < x := lt_of_lt_of_le (by positivity) hlo
  have habs : |x| = x := abs_of_pos hx
  have hrabs : |r| = r := abs_of_nonneg hpos
  rw [toDouble_eq x e k (by rw [habs]; exact hlo) (by rw [habs]; exact hhi) he
    (roundHalfEven_of_lt _ k hklo hkhi) (by rw [hr, hrabs]; exact hfin), hr]

/-- Adding items priced 0 to a sum that is a float leaves the sum as it is. -/
theorem foldl_numAdd_zero (n : Nat) (item : Item) (a : ℚ) (hprice : item.price = 0)
    (ha : toDouble a = some a) :
    (List.replicate n item).foldl (fun acc cur => numAdd acc (some cur.price)) (some a)
      = some a := by
  induction n with
  | zero => rfl
  | succ n ih =>
    rw [List.replicate_succ, List.foldl_cons]
    have hstep : numAdd (some a) (some item.price) = some a := by
      simp only [numAdd, hprice, add_zero, ha]
    rw [hstep, ih]

/-- The float 23. -/
theorem toDouble_23 : toDouble 23 = some 23 :=
  toDouble_eval 23 4 6473924464345088 23 (by norm_num) (by norm_num) (by norm_num)
    (by norm_num) (by norm_num) (by norm_num) (by norm_num) (by norm_num)

/-- The float nearest to a positive `x` that lies half way between `k` and
`k + 1` units in the last place, `k` even. -/
theorem toDouble_eval_tie (x : ℚ) (e k : ℤ) (r : ℚ) (hlo : (2 : ℚ) ^ e ≤ x)
    (hhi : x < (2 : ℚ) ^ (e + 1)) (he : -1022 ≤ e)
    (htie : x / (2 : ℚ) ^ (e - 52) = (k : ℚ) + 1 / 2) (heven : k % 2 = 0)
    (hr : (k : ℚ) * (2 : ℚ) ^ (e - 52) = r) (hpos : 0 ≤ r)
    (hfin : r < (2 : ℚ) ^ (1024 : ℤ)) :
    toDouble x = some r := by
  have hx : (0 : ℚ) < x := lt_of_lt_of_le (by positivity) hlo
  have habs : |x| = x := abs_of_pos hx
  have hrabs : |r| = r := abs_of_nonneg hpos
  rw [toDouble_eq x e k (by rw [habs]; exact hlo) (by rw [habs]; exact hhi) he
    (roundHalfEven_tie_even _ k htie heven) (by rw [hr, hrabs]; exact hfin), hr]

/-! ## The average price in binary64 -/

/-- The operator `+` on two finite numbers. -/
theorem numAdd_some (x y : ℚ) : numAdd (some x) (some y) = toDouble (x + y) := rfl

/-- The operator `*` on two finite numbers. -/
theorem numMul_some (x y : ℚ) : numMul (some x) (some y) = toDouble (x * y) := rfl

/-- The operator `/` on two finite numbers with a divisor other than zero. -/
theorem numDiv_some (x y : ℚ) (hy : y ≠ 0) : numDiv (some x) (some y) = toDouble (x / y) := by
  simp only [numDiv, if_neg hy]

/-- `Math.round` on a finite number. -/
theorem numRound_some (x : ℚ) : numRound (some x) = some ((mathRound x : ℤ) : ℚ) := rfl

/-- One step of the reducer of `sumPrices`. -/
theorem foldl_numAdd_cons (item : Item) (rest : List Item) (a : ℚ) :
    (item :: rest).foldl (fun acc cur => numAdd acc (some cur.price)) (some a)
      = rest.foldl (fun acc cur => numAdd acc (some cur.price)) (toDouble (a + item.price)) :=
  rfl

/-- The `averagePrice` field of a non-empty sequence whose sum is finite. -/
theorem averagePrice_of_sum (items : List Item) (s : ℚ) (hpos : items.length > 0)
    (hsum : sumPrices items = some s) :
    (calculateStats items).averagePrice
      = numDiv (numRound (numMul (toDouble (s / (items.length : ℚ))) (some 100))) (some 100) := by
  have hlen : ((items.length : ℕ) : ℚ) ≠ 0 := by
    have : items.length ≠ 0 := by omega
    exact_mod_cast this
  show averagePrice items = _
  unfold averagePrice
  rw [if_pos hpos, hsum, numDiv_some _ _ hlen]

/-- The `averagePrice` field from the floats of the intermediate results: the
mean `m`, its product `p` with 100, and the rounded product `k`. -/
theorem averagePrice_steps (items : List Item) (s m p : ℚ) (k : ℤ) (hpos : items.length > 0)
    (hsum : sumPrices items = some s) (hmean : toDouble (s / (items.length : ℚ)) = some m)
    (hscaled : toDouble (m * 100) = some p) (hround : mathRound p = k) :
    (calculateStats items).averagePrice = toDouble ((k : ℚ) / 100) := by
  rw [averagePrice_of_sum items s hpos hsum, hmean, numMul_some, hscaled, numRound_some, hround,
    numDiv_some _ _ (by norm_num)]

/-- C9. Forty items priced 23, 0, ..., 0 have the mean 0.575, which the claim
rounds up to 0.58 (`floor(100 * sum / n + 1/2) = 58`). The code divides 23 by 40
in binary64, which gives a float below 0.575, multiplies by 100 to
57.49999999999999, rounds to 57 and returns the float nearest 0.57, not the
float nearest 0.58. -/
theorem averagePrice_tie_rounds_down :
    (calculateStats tieItems).averagePrice
      = some (5134103575202365 / 9007199254740992) ∧
    toDouble (57 / 100) = some (5134103575202365 / 9007199254740992) ∧
    toDouble (58 / 100) = some (5224175567749775 / 9007199254740992) ∧
    (tieItems.map (fun item => item.price)).sum = 23 ∧
    tieItems.length = 40 ∧
    ⌊(100 * (tieItems.map (fun item => item.price)).sum / (tieItems.length : ℚ) + 1 / 2 : ℚ)⌋
      = 58 := by
  have hlen : tieItems.length = 40 := rfl
  have hsum : sumPrices tieItems = some 23 := by
    unfold sumPrices tieItems
    rw [foldl_numAdd_cons]
    show List.foldl _ (toDouble (0 + 23)) _ = _
    rw [zero_add, toDouble_23]
    exact foldl_numAdd_zero 39 _ 23 rfl toDouble_23
  have hmean : toDouble (23 / ((tieItems.length : ℕ) : ℚ))
      = some (5179139571476070 / 9007199254740992) := by
    have hcast : (23 : ℚ) / ((tieItems.length : ℕ) : ℚ) = 23 / 40 := by rw [hlen]; norm_num
    rw [hcast]
    exact toDouble_eval _ (-1) 5179139571476070 _ (by norm_num) (by norm_num) (by norm_num)
      (by norm_num) (by norm_num) (by norm_num) (by norm_num) (by norm_num)
  have hscaled : toDouble (5179139571476070 / 9007199254740992 * 100)
      = some (8092405580431359 / 140737488355328) :=
    toDouble_eval _ 5 8092405580431359 _ (by norm_num) (by norm_num) (by norm_num)
      (by norm_num) (by norm_num) (by norm_num) (by norm_num) (by norm_num)
  have hround : mathRound (8092405580431359 / 140737488355328) = 57 := by
    rw [mathRound_eq_floor, Int.floor_eq_iff]
    constructor <;> norm_num
  have hresult : toDouble (57 / 100) = some (5134103575202365 / 9007199254740992) :=
    toDouble_eval _ (-1) 5134103575202365 _ (by norm_num) (by norm_num) (by norm_num)
      (by norm_num) (by norm_num) (by norm_num) (by norm_num) (by norm_num)
  have hclaimed : toDouble (58 / 100) = some (5224175567749775 / 9007199254740992) :=
    toDouble_eval _ (-1) 5224175567749775 _ (by norm_num) (by norm_num) (by norm_num)
      (by norm_num) (by norm_num) (by norm_num) (by norm_num) (by norm_num)
  have hprices : (tieItems.map (fun item => item.price)).sum = 23 := by
    simp [tieItems]
  refine ⟨?_, hresult, hclaimed, hprices, hlen, ?_⟩
  · rw [averagePrice_steps tieItems 23 _ _ 57 (by rw [hlen]; norm_num) hsum hmean hscaled hround]
    have hcast : (((57 : ℤ) : ℚ)) / 100 = 57 / 100 := by norm_num
    rw [hcast, hresult]
  · rw [hprices, hlen, Int.floor_eq_iff]
    constructor <;> norm_num

/-- C21. One item with the integer price 502858839078121 has that price as
minimum and maximum. The code multiplies the mean by 100 in binary64, where the
product 50285883907812100 lies half way between two floats and becomes
50285883907812096; the division by 100 then gives 502858839078120.9375, which
is below `priceRange.min`. -/
theorem averagePrice_below_priceRange_min :
    (calculateStats largePriceItems).averagePrice = some (8045741425249935 / 16) ∧
    (calculateStats largePriceItems).priceRange
      = { min := 502858839078121, max := 502858839078121 } ∧
    (8045741425249935 / 16 : ℚ) < (calculateStats largePriceItems).priceRange.min := by
  have hlen : largePriceItems.length = 1 := rfl
  have hprice : toDouble 502858839078121 = some 502858839078121 :=
    toDouble_eval _ 48 8045741425249936 _ (by norm_num) (by norm_num) (by norm_num)
      (by norm_num) (by norm_num) (by norm_num) (by norm_num) (by norm_num)
  have hsum : sumPrices largePriceItems = some 502858839078121 := by
    unfold sumPrices largePriceItems
    rw [foldl_numAdd_cons]
    show List.foldl _ (toDouble (0 + 502858839078121)) _ = _
    rw [zero_add, hprice]
    rfl
  have hmean : toDouble (502858839078121 / ((largePriceItems.length : ℕ) : ℚ))
      = some 502858839078121 := by
    have hcast : (502858839078121 : ℚ) / ((largePriceItems.length : ℕ) : ℚ)
        = 502858839078121 := by rw [hlen]; norm_num
    rw [hcast, hprice]
  have hscaled : toDouble (502858839078121 * 100) = some 50285883907812096 :=
    toDouble_eval_tie _ 55 6285735488476512 _ (by norm_num) (by norm_num) (by norm_num)
      (by norm_num) (by norm_num) (by norm_num) (by norm_num) (by norm_num)
  have hround : mathRound 50285883907812096 = 50285883907812096 := by
    rw [mathRound_eq_floor, Int.floor_eq_iff]
    constructor <;> norm_num
  have hresult : toDouble (50285883907812096 / 100) = some (8045741425249935 / 16) :=
    toDouble_eval _ 48 8045741425249935 _ (by norm_num) (by norm_num) (by norm_num)
      (by norm_num) (by norm_num) (by norm_num) (by norm_num) (by norm_num)
  have hrange : (calculateStats largePriceItems).priceRange
      = { min := 502858839078121, max := 502858839078121 } := by
    simp [calculateStats, priceRange, largePriceItems, mathMin, mathMax]
  refine ⟨?_, hrange, ?_⟩
  · rw [averagePrice_steps largePriceItems 502858839078121 _ _ 50285883907812096
      (by rw [hlen]; norm_num) hsum hmean hscaled hround]
    have hcast : (((50285883907812096 : ℤ) : ℚ)) / 100 = 50285883907812096 / 100 := by
      norm_num
    rw [hcast, hresult]
  · rw [hrange]
    norm_num

/-- The fixture of `stats.test.js`, prices 2499, 399 and 799: the code returns
the float nearest 1232.33, which is what the test expects. -/
theorem averagePrice_mockItems :
    (calculateStats mockItems).averagePrice = toDouble (123233 / 100) ∧
    toDouble (123233 / 100) = some (5419844657028792 / 4398046511104) := by
  have hlen : mockItems.length = 3 := rfl
  have h1 : toDouble 2499 = some 2499 :=
    toDouble_eval _ 11 5495359115624448 _ (by norm_num) (by norm_num) (by norm_num)
      (by norm_num) (by norm_num) (by norm_num) (by norm_num) (by norm_num)
  have h2 : toDouble 2898 = some 2898 :=
    toDouble_eval _ 11 6372769394589696 _ (by norm_num) (by norm_num) (by norm_num)
      (by norm_num) (by norm_num) (by norm_num) (by norm_num) (by norm_num)
  have h3 : toDouble 3697 = some 3697 :=
    toDouble_eval _ 11 8129788975775744 _ (by norm_num) (by norm_num) (by norm_num)
      (by norm_num) (by norm_num) (by norm_num) (by norm_num) (by norm_num)
  have hsum : sumPrices mockItems = some 3697 := by
    have e1 : (0 : ℚ) + 2499 = 2499 := by norm_num
    have e2 : (2499 : ℚ) + 399 = 2898 := by norm_num
    have e3 : (2898 : ℚ) + 799 = 3697 := by norm_num
    unfold sumPrices mockItems
    rw [foldl_numAdd_cons]
    show List.foldl _ (toDouble (0 + 2499)) _ = _
    rw [e1, h1, foldl_numAdd_cons]
    show List.foldl _ (toDouble (2499 + 399)) _ = _
    rw [e2, h2, foldl_numAdd_cons]
    show List.foldl _ (toDouble (2898 + 799)) _ = _
    rw [e3, h3]
    rfl
  have hmean : toDouble (3697 / ((mockItems.length : ℕ) : ℚ))
      = some (5419859317183829 / 4398046511104) := by
    have hcast : (3697 : ℚ) / ((mockItems.length : ℕ) : ℚ) = 3697 / 3 := by rw [hlen]; norm_num
    rw [hcast]
    exact toDouble_eval _ 10 5419859317183829 _ (by norm_num) (by norm_num) (by norm_num)
      (by norm_num) (by norm_num) (by norm_num) (by norm_num) (by norm_num)
  have hscaled : toDouble (5419859317183829 / 4398046511104 * 100)
      = some (8468530183099733 / 68719476736) :=
    toDouble_eval _ 16 8468530183099733 _ (by norm_num) (by norm_num) (by norm_num)
      (by norm_num) (by norm_num) (by norm_num) (by norm_num) (by norm_num)
  have hround : mathRound (8468530183099733 / 68719476736) = 123233 := by
    rw [mathRound_eq_floor, Int.floor_eq_iff]
    constructor <;> norm_num
  have hresult : toDouble (123233 / 100) = some (5419844657028792 / 4398046511104) :=
    toDouble_eval _ 10 5419844657028792 _ (by norm_num) (by norm_num) (by norm_num)
      (by norm_num) (by norm_num) (by norm_num) (by norm_num) (by norm_num)
  refine ⟨?_, hresult⟩
  rw [averagePrice_steps mockItems 3697 _ _ 123233 (by rw [hlen]; norm_num) hsum hmean hscaled
    hround]
  have hcast : (((123233 : ℤ) : ℚ)) / 100 = 123233 / 100 := by norm_num
  rw [hcast]

/-! ## The empty collection and the limit on spread arguments -/

/-- C12. On the empty sequence `calculateStats` gives
`{total: 0, averagePrice: 0, categories: {}, priceRange: {min: 0, max: 0}}` on
every engine. On an engine whose call stack holds `maxArguments` arguments it
returns an aggregate for every sequence of at most `maxArguments` items and
raises a `RangeError` for a sequence of `maxArguments + 1` items: whatever the
stack size, some sequence of well-formed items makes it raise. -/
theorem calculateStatsWithin_raises (maxArguments : Nat) (item : Item) :
    calculateStatsWithin maxArguments []
      = Except.ok { total := 0, averagePrice := some 0, categories := [],
                    priceRange := { min := 0, max := 0 } } ∧
    (∀ items : List Item, items.length ≤ maxArguments →
      calculateStatsWithin maxArguments items = Except.ok (calculateStats items)) ∧
    calculateStatsWithin maxArguments (List.replicate (maxArguments + 1) item)
      = Except.error "Maximum call stack size exceeded" := by
  refine ⟨?_, ?_, ?_⟩
  · simp [calculateStatsWithin, calculateStats, averagePrice, categories, priceRange]
  · intro items hlen
    simp [calculateStatsWithin, Nat.not_lt.mpr hlen]
  · simp [calculateStatsWithin]

end Assessment
